import Mathlib

/-!
Verification of the batch-job orchestration core of the x-feed-digest backend.

The Python source (backend/services/batch_fetcher.py, backend/services/job_runner.py,
backend/api/routes.py, backend/services/subscriptions.py, backend/core/storage.py)
is shallowly embedded below: pure helpers become Lean functions, the stateful
orchestration becomes explicit state passing over a store record, and the external
collaborators that the spec excludes (the chat-completions HTTP client, the CSV
column-detection parser `extract_users` / `csv.DictReader`, the summarizer, the
APScheduler runtime) are passed in as explicit oracle parameters, exactly at the
interface boundary the spec describes.
-/

namespace XFeed

/-! ## batch_fetcher._chunk

Python source (backend/services/batch_fetcher.py, lines 29-30):
  def _chunk(items, size):
      return [items[i : i + size] for i in range(0, len(items), size)]

For size > 0 the comprehension takes successive slices of length `size`;
the `size = 0` case raises ValueError in Python (range step 0) and is modelled
as the empty list (all claims assume a positive batch size). -/
def _chunk {α : Type _} : List α → Nat → List (List α)
  | [], _ => []
  | a :: rest, size =>
    if size = 0 then []
    else (a :: rest).take size :: _chunk ((a :: rest).drop size) size
termination_by items _ => items.length
decreasing_by
  simp only [List.length_drop, List.length_cons]
  omega

/-! ## Data model

Per-batch status records and job records, mirroring the JSON payloads written by
set_batch_status / set_job_status (backend/core/storage.py).  Optional JSON
fields (error, timestamps, the counts added later by job_runner/routes) are
Options.  Timestamps come from int(time.time()); we thread an abstract
monotonically increasing clock (a Nat incremented at every read) instead of
real time. -/

/-- A parsed tweet row: Python Dict[str, str], modelled as an association list. -/
abbrev TweetRow := List (String × String)

/-- Python row.get(k, ""): lookup with empty-string default. -/
def rowGet (r : TweetRow) (k : String) : String :=
  ((r.find? (fun p => p.1 = k)).map (fun p => p.2)).getD ""

structure BatchStatus where
  index : Nat
  status : String
  attempts : Nat
  max_attempts : Nat
  error : Option String
  started_at : Option Nat
  finished_at : Option Nat
  last_attempt_at : Option Nat
deriving DecidableEq, Repr

structure JobRecord where
  job_id : String
  status : String
  created_at : Nat
  batch_size : Nat
  total_users : Option Nat
  completed_batches : Nat
  total_batches : Nat
  failed_batches : Option Nat := none
  succeeded_batches : Option Nat := none
  error : Option String := none
deriving DecidableEq, Repr

/-! ## batch_fetcher._rows_to_csv

Python source (backend/services/batch_fetcher.py, lines 58-67): zero rows give
the bare header line terminated by a single newline; otherwise csv.DictWriter
with quoting=csv.QUOTE_ALL writes the header row and each data row, every field
double-quoted with embedded quotes doubled, rows terminated by the csv module's
default "\r\n". -/

def fieldnames : List String :=
  ["username", "tweet_id", "created_at", "text", "original_url"]

/-- Doubling of embedded double quotes, as csv.writer does inside a quoted
field. -/
def escapeQuotes : List Char → List Char
  | [] => []
  | c :: rest =>
    if c = '"' then '"' :: '"' :: escapeQuotes rest else c :: escapeQuotes rest

/-- Rendering of one field by csv.writer under QUOTE_ALL: always wrap in double
quotes and double any embedded double quote. -/
def pyCsvQuote (s : String) : String :=
  "\"" ++ String.mk (escapeQuotes s.data) ++ "\""

/-- One csv.DictWriter row under QUOTE_ALL with the default \r\n terminator. -/
def csvRow (fields : List String) : String :=
  String.intercalate "," (fields.map pyCsvQuote) ++ "\r\n"

def _rows_to_csv (rows : List TweetRow) : String :=
  if rows = [] then "username,tweet_id,created_at,text,original_url\n"
  else
    csvRow fieldnames
      ++ String.join (rows.map (fun row => csvRow (fieldnames.map (fun k => rowGet row k))))

/-- The plain header line emitted for an empty row set. -/
def plainHeader : String := "username,tweet_id,created_at,text,original_url"

/-- The QUOTE_ALL header line emitted by csv.DictWriter.writeheader. -/
def quotedHeader : String :=
  "\"username\",\"tweet_id\",\"created_at\",\"text\",\"original_url\""

/-! ## Python str.splitlines

The aggregator calls csv_text.splitlines() (backend/api/routes.py, line 141).
Modelled for the line terminators that can occur in stored batch outputs and
merged outputs: "\n", "\r" and "\r\n" (Python also splits on rarer control
characters that cannot appear here). A trailing terminator does not produce a
final empty line, exactly as in Python. -/
def pySplitlinesAux : List Char → List Char → List String
  | [], acc => if acc = [] then [] else [String.mk acc.reverse]
  | '\r' :: '\n' :: rest, acc => String.mk acc.reverse :: pySplitlinesAux rest []
  | '\r' :: rest, acc => String.mk acc.reverse :: pySplitlinesAux rest []
  | '\n' :: rest, acc => String.mk acc.reverse :: pySplitlinesAux rest []
  | c :: rest, acc => pySplitlinesAux rest (c :: acc)

def pySplitlines (s : String) : List String :=
  pySplitlinesAux s.data []

/-- Non-empty lines of a stored batch output, as the aggregator computes them:
[line for line in csv_text.splitlines() if line]. -/
def aggLines (t : String) : List String :=
  (pySplitlines t).filter (fun l => l ≠ "")

/-! ## Retry configuration

Python source (backend/services/batch_fetcher.py, _init_client_and_config,
lines 107-111): the retry sub-dict is read with defaults max_retries=2,
batch_max_retries=3, backoff_base_s=0.5, backoff_max_s=8.0.  The one pair
(backoff_base, backoff_max) returned here is handed to both retry loops.
Delays are Python floats; they are modelled as rationals (the code only ever
multiplies them by powers of two and takes minima). -/

structure RetryConfigDict where
  max_retries : Option Nat
  batch_max_retries : Option Nat
  backoff_base_s : Option ℚ
  backoff_max_s : Option ℚ

structure RetrySettings where
  max_retries : Nat
  batch_max_retries : Nat
  backoff_base : ℚ
  backoff_max : ℚ

def _init_retry_settings (d : RetryConfigDict) : RetrySettings :=
  { max_retries := d.max_retries.getD 2
    batch_max_retries := d.batch_max_retries.getD 3
    backoff_base := d.backoff_base_s.getD (1 / 2)
    backoff_max := d.backoff_max_s.getD 8 }

/-! ## batch_fetcher._fetch_single_batch (inner retry loop)

Python source lines 70-100.  The external chat call and the tolerant CSV
response parser (_parse_csv_response, built on csv.DictReader — an excluded
collaborator per the spec) are oracle parameters: `chat attempt` is the result
of the chat-completions call on the given 0-based inner attempt (the extracted
first-choice message content, or the raised exception's string), and `parse`
is _parse_csv_response.  The result carries the backoff sleeps performed, in
order. -/

structure InnerOut where
  result : Except String (List TweetRow)
  sleeps : List ℚ

/-- One pass of the for-attempt-in-range(max_retries+1) loop, structurally
recursing on the number of remaining iterations.  The base case models the
(unreachable) fall-through return at line 100 of the source. -/
def innerLoop (chat : Nat → Except String String) (parse : String → List TweetRow)
    (batch_idx max_retries : Nat) (backoff_base backoff_max : ℚ) :
    Nat → Nat → InnerOut
  | _attempt, 0 => { result := .ok [], sleeps := [] }
  | attempt, remaining + 1 =>
    match chat attempt with
    | .ok content => { result := .ok (parse content), sleeps := [] }
    | .error exc =>
      if attempt ≥ max_retries then
        { result := .error ("Grok batch " ++ toString batch_idx ++ " failed: " ++ exc)
          sleeps := [] }
      else
        let rest := innerLoop chat parse batch_idx max_retries backoff_base backoff_max
          (attempt + 1) remaining
        { result := rest.result
          sleeps := min (backoff_base * 2 ^ attempt) backoff_max :: rest.sleeps }

def _fetch_single_batch (chat : Nat → Except String String) (parse : String → List TweetRow)
    (batch_idx max_retries : Nat) (backoff_base backoff_max : ℚ) : InnerOut :=
  innerLoop chat parse batch_idx max_retries backoff_base backoff_max 0 (max_retries + 1)

/-! ## batch_fetcher._fetch_batch_with_retries (outer retry loop)

Python source lines 142-202.  `chat k` is the inner-attempt oracle used by the
fresh inner-loop cycle of outer attempt k.  The result records the rows, the
final status record, every status record persisted via _write_batch_status in
order, the outer backoff sleeps, the batch output saved on success (Python
saves _rows_to_csv(rows) via save_batch_output only on the success path),
and the advanced clock. -/

structure BatchRunOut where
  rows : List TweetRow
  final : BatchStatus
  writes : List BatchStatus
  outerSleeps : List ℚ
  output : Option String
  clock : Nat

/-- The pre-attempt status upsert of lines 170-174: attempts = attempt+1,
status running, error cleared, last_attempt_at stamped. -/
def runningStatus (st : BatchStatus) (attempt clock : Nat) : BatchStatus :=
  { st with attempts := attempt + 1, status := "running", error := none,
            last_attempt_at := some clock }

/-- The post-attempt success upsert of lines 186-188. -/
def succeededStatus (st1 : BatchStatus) (clock : Nat) : BatchStatus :=
  { st1 with status := "succeeded", finished_at := some (clock + 1) }

/-- The post-attempt failure upsert of lines 193-197. -/
def failedStatus (st1 : BatchStatus) (e : String) (clock : Nat) : BatchStatus :=
  { st1 with status := "failed", error := some e, finished_at := some (clock + 1) }

/-- One pass of the for-attempt-in-range(max_attempts) loop of
_fetch_batch_with_retries, structurally recursing on the remaining iteration
count (the caller starts it with remaining = batch_max_retries + 1 and
attempt = 0).  The base case models the post-loop return at line 202. -/
def outerLoop (chat : Nat → Nat → Except String String) (parse : String → List TweetRow)
    (batch_idx max_retries batch_max_retries : Nat) (backoff_base backoff_max : ℚ) :
    BatchStatus → Nat → Nat → Nat → BatchRunOut
  | st, clock, _attempt, 0 =>
    { rows := [], final := st, writes := [], outerSleeps := [], output := none, clock := clock }
  | st, clock, attempt, remaining + 1 =>
    let st1 := runningStatus st attempt clock
    let inner := _fetch_single_batch (chat attempt) parse batch_idx max_retries
      backoff_base backoff_max
    match inner.result with
    | .ok rows =>
      { rows := rows, final := succeededStatus st1 clock, writes := [st1, succeededStatus st1 clock],
        outerSleeps := [], output := some (_rows_to_csv rows), clock := clock + 2 }
    | .error e =>
      let st2 := failedStatus st1 e clock
      if attempt < batch_max_retries then
        let rest := outerLoop chat parse batch_idx max_retries batch_max_retries
          backoff_base backoff_max st2 (clock + 2) (attempt + 1) remaining
        { rest with writes := st1 :: st2 :: rest.writes,
                    outerSleeps := min (backoff_base * 2 ^ attempt) backoff_max :: rest.outerSleeps }
      else
        { rows := [], final := st2, writes := [st1, st2], outerSleeps := [],
          output := none, clock := clock + 2 }

def initialBatchStatus (batch_idx batch_max_retries started : Nat) : BatchStatus :=
  { index := batch_idx, status := "pending", attempts := 0,
    max_attempts := batch_max_retries + 1, error := none,
    started_at := some started, finished_at := none, last_attempt_at := none }

def _fetch_batch_with_retries (chat : Nat → Nat → Except String String)
    (parse : String → List TweetRow) (batch_idx max_retries batch_max_retries : Nat)
    (backoff_base backoff_max : ℚ) (clock : Nat) : BatchRunOut :=
  outerLoop chat parse batch_idx max_retries batch_max_retries backoff_base backoff_max
    (initialBatchStatus batch_idx batch_max_retries clock) (clock + 1) 0 (batch_max_retries + 1)

/-- Outer loop driven by the settings _init_client_and_config extracts from the
retry config dict — the source wires the single configured
(backoff_base, backoff_max) pair into both the outer loop and, through it, the
inner loop, while the two maximum attempt counts are separate keys. -/
def fetchBatchCfg (d : RetryConfigDict) (chat : Nat → Nat → Except String String)
    (parse : String → List TweetRow) (batch_idx clock : Nat) : BatchRunOut :=
  let s := _init_retry_settings d
  _fetch_batch_with_retries chat parse batch_idx s.max_retries s.batch_max_retries
    s.backoff_base s.backoff_max clock

/-! ## batch_fetcher.fetch_all_tweets

Python source lines 239-338.  Workers may complete in any order, but results
are keyed by index and the merge iterates indices 0..N-1, so the outcome equals
the sequential per-index runs below; statuses are returned sorted by index.
`chat i` is the oracle of batch i.  The initial pending status pre-writes and
the defensive future.result() exception fallback (dead in this total model) are
not represented. -/
def fetch_all_core (chat : Nat → Nat → Nat → Except String String)
    (parse : String → List TweetRow) (total_batches max_retries batch_max_retries : Nat)
    (backoff_base backoff_max : ℚ) (clock : Nat) : List BatchRunOut :=
  (List.range total_batches).map (fun i =>
    _fetch_batch_with_retries (chat i) parse i max_retries batch_max_retries
      backoff_base backoff_max clock)

def fetch_all_tweets (chat : Nat → Nat → Nat → Except String String)
    (parse : String → List TweetRow) (total_batches max_retries batch_max_retries : Nat)
    (backoff_base backoff_max : ℚ) (clock : Nat) : String × List BatchStatus :=
  let runs := fetch_all_core chat parse total_batches max_retries batch_max_retries
    backoff_base backoff_max clock
  let all_rows :=
    (runs.filterMap (fun r => if r.final.status = "succeeded" then some r.rows else none)).flatten
  (_rows_to_csv all_rows, runs.map (fun r => r.final))

deriving instance DecidableEq for Except

/-- Oracle that never succeeds, for concrete retry-exhaustion runs. -/
def chatFailI : Nat → Except String String := fun _ => Except.error "x"

/-- Outer-level oracle that never succeeds. -/
def chatFailO : Nat → Nat → Except String String := fun _ _ => Except.error "x"

/-- Parser oracle returning no rows. -/
def parse0 : String → List TweetRow := fun _ => []

/-- Per-batch oracle for the C5 witness: batch 0 always fails, others succeed. -/
def chatC5 : Nat → Nat → Nat → Except String String :=
  fun i _ _ => if i = 0 then Except.error "boom" else Except.ok ""

/-! ## services/job_runner.run_job

Python source backend/services/job_runner.py, lines 13-100.  The whole
fetch_all_tweets call is passed in as its outcome: either the returned
(csv_text, batch_statuses) pair or a raised exception's message; the summarizer
is an oracle.  The output records every set_job_status write in order, the
artifacts written via save_output / save_summary, and the re-raised exception
if any.  The on_status_update callback receives exactly the written records
and is not modelled separately. -/

structure RunJobOut where
  writes : List JobRecord
  savedOutput : Option String
  savedSummary : Option String
  raised : Option String

def run_job (job_id : String) (fetch : Except String (String × List BatchStatus))
    (summarize_csv : String → Except String String)
    (batch_size total_users clock : Nat) : RunJobOut :=
  let total_batches := (total_users + batch_size - 1) / batch_size
  let st0 : JobRecord :=
    { job_id := job_id, status := "running", created_at := clock,
      batch_size := batch_size, total_users := some total_users,
      completed_batches := 0, total_batches := total_batches }
  match fetch with
  | .error e =>
    { writes := [st0, { st0 with status := "failed", error := some e }],
      savedOutput := none, savedSummary := none, raised := some e }
  | .ok (csv_text, batch_statuses) =>
    let progress := (List.range batch_statuses.length).map
      (fun c => { st0 with completed_batches := c + 1 })
    let stP : JobRecord :=
      if batch_statuses.length = 0 then st0
      else { st0 with completed_batches := batch_statuses.length }
    let failed := (batch_statuses.filter (fun b => b.status = "failed")).length
    let succeeded := (batch_statuses.filter (fun b => b.status = "succeeded")).length
    let st1 : JobRecord :=
      { stP with failed_batches := some failed, succeeded_batches := some succeeded }
    if 0 < failed then
      let stF : JobRecord :=
        { st1 with status := "failed", error := some (toString failed ++ " batch(es) failed") }
      { writes := st0 :: progress ++ [stF], savedOutput := none,
        savedSummary := none, raised := none }
    else
      let stS : JobRecord := { st1 with status := "summarizing" }
      match summarize_csv csv_text with
      | .ok summary_text =>
        { writes := st0 :: progress ++ [stS, { stS with status := "done" }],
          savedOutput := some csv_text, savedSummary := some summary_text, raised := none }
      | .error e =>
        { writes := st0 :: progress ++ [stS, { stS with status := "failed", error := some e }],
          savedOutput := some csv_text, savedSummary := none, raised := some e }

/-- Collapse adjacent equal entries: the sequence of distinct statuses a job
record passes through. -/
def collapseRuns : List String → List String
  | [] => []
  | [a] => [a]
  | a :: b :: rest =>
    if a = b then collapseRuns (b :: rest) else a :: collapseRuns (b :: rest)

/-! ## api/routes._aggregate_job

Python source backend/api/routes.py, lines 116-172.  The job record, the
listed batch statuses (list_batch_statuses returns them sorted by index; the
function sorts the succeeded subset again) and get_batch_output are passed
explicitly; the summarizer is an oracle.  The output records the final job
record, the job-status writes in order, and the artifacts saved via
save_output / save_summary. -/

/-- The aggregator's missing-output test: Python `if not csv_text` is true for
an absent output (None) and for an empty string. -/
def outputAbsent : Option String → Bool
  | none => true
  | some t => t == ""

/-- One iteration of the combining loop (lines 133-147): accumulate
(combined_lines, missing_outputs). -/
def mergeStep (g : Nat → Option String) (acc : List String × List Nat)
    (b : BatchStatus) : List String × List Nat :=
  match g b.index with
  | none => (acc.1, acc.2 ++ [b.index])
  | some t =>
    if t = "" then (acc.1, acc.2 ++ [b.index])
    else
      let lines := aggLines t
      if lines = [] then acc
      else if acc.1 = [] then (lines, acc.2)
      else (acc.1 ++ lines.drop 1, acc.2)

/-- Python repr of a list of ints, as interpolated into the missing-outputs
error message: f-string of a list formats as [i1, i2, ...]. -/
def pyListRepr (l : List Nat) : String :=
  "[" ++ String.intercalate ", " (l.map toString) ++ "]"

/-- The non-empty line list of a batch output, as consumed by the merge. -/
def lineOf (g : Nat → Option String) (b : BatchStatus) : List String :=
  aggLines ((g b.index).getD "")

/-- Specification-side description of the merge (spec section 4.5): keep the
first non-empty batch output whole, drop the header (first) line of every
subsequent non-empty output. -/
def headerMergeSpec (ls : List (List String)) : List String :=
  match ls.filter (fun l => l ≠ []) with
  | [] => []
  | first :: rest => first ++ (rest.map (fun l => l.drop 1)).flatten

/-- Rendering of the combined lines (lines 155-157): header-only placeholder if
empty, then joined with newlines and terminated by one newline. -/
def mergedText (ls : List String) : String :=
  String.intercalate "\n" (if ls = [] then [plainHeader] else ls) ++ "\n"

structure AggOut where
  finalJob : Option JobRecord
  writes : List JobRecord
  savedOutput : Option String
  savedSummary : Option String

def _aggregate_job (job : Option JobRecord) (batches : List BatchStatus)
    (get_batch_output : Nat → Option String) (summarize : Bool)
    (summarize_csv : String → Except String String) : AggOut :=
  match job with
  | none => { finalJob := none, writes := [], savedOutput := none, savedSummary := none }
  | some st =>
    let successful := batches.filter (fun b => b.status = "succeeded")
    if successful = [] then
      let stF : JobRecord :=
        { st with status := "failed", error := some "No successful batches to aggregate" }
      { finalJob := some stF, writes := [stF], savedOutput := none, savedSummary := none }
    else
      let stS : JobRecord := { st with status := "summarizing" }
      let sorted := List.insertionSort (fun a b => a.index ≤ b.index) successful
      let acc := sorted.foldl (mergeStep get_batch_output) ([], [])
      if acc.2 ≠ [] then
        let stF : JobRecord :=
          { stS with status := "failed",
                     error := some ("Missing output files for batches: " ++ pyListRepr acc.2) }
        { finalJob := some stF, writes := [stS, stF], savedOutput := none, savedSummary := none }
      else
        let csv_text := mergedText acc.1
        if summarize then
          match summarize_csv csv_text with
          | .error e =>
            let stF : JobRecord :=
              { stS with status := "failed", error := some ("Summarization failed: " ++ e) }
            { finalJob := some stF, writes := [stS, stF], savedOutput := some csv_text,
              savedSummary := none }
          | .ok summary_text =>
            let stD : JobRecord := { stS with status := "done", error := none }
            { finalJob := some stD, writes := [stS, stD], savedOutput := some csv_text,
              savedSummary := some summary_text }
        else
          let stD : JobRecord := { stS with status := "done", error := none }
          { finalJob := some stD, writes := [stS, stD], savedOutput := some csv_text,
            savedSummary := none }

/-- Succeeded batch record used in concrete aggregation scenarios. -/
def bC3a : BatchStatus :=
  { index := 0, status := "succeeded", attempts := 1, max_attempts := 4, error := none,
    started_at := some 0, finished_at := some 1, last_attempt_at := some 0 }

/-- Second succeeded batch record. -/
def bC3b : BatchStatus := { bC3a with index := 1 }

/-- Stored outputs for the concrete header-merge example: batch 0 has lines
h, a1, a2 and batch 1 has lines h, b1. -/
def gC3 : Nat → Option String :=
  fun i => if i = 0 then some "h\na1\na2" else if i = 1 then some "h\nb1" else none

/-- A job record for concrete aggregation scenarios. -/
def jC3 : JobRecord :=
  { job_id := "j", status := "failed", created_at := 0, batch_size := 10,
    total_users := some 23, completed_batches := 3, total_batches := 3 }

/-- Summarizer oracle that always raises. -/
def summFail : String → Except String String := fun _ => Except.error "boom"

/-- Stored outputs for the C4 counterexample: only batch 0 has an output. -/
def gC4 : Nat → Option String := fun i => if i = 0 then some "h\nr" else none

/-! ## Persistent store and api/routes._retry_batch / retry_job_batch

The durable key-value persistence (backend/core/storage.py) keeps one job
record, one batch-status record per index ({batch_idx}.json, an idempotent
upsert) and one batch output per index ({batch_idx}.csv).  Modelled as explicit
state threaded through the route helpers. -/

structure StoreState where
  job : Option JobRecord
  batches : List BatchStatus
  outputs : List (Nat × String)
deriving DecidableEq

/-- set_batch_status: overwrite the record of that index if present, else
create it. -/
def upsertBatch (l : List BatchStatus) (b : BatchStatus) : List BatchStatus :=
  if l.any (fun x => x.index = b.index) then
    l.map (fun x => if x.index = b.index then b else x)
  else l ++ [b]

/-- save_batch_output: overwrite or create the output of that index. -/
def setOutput (l : List (Nat × String)) (i : Nat) (t : String) : List (Nat × String) :=
  if l.any (fun p => p.1 = i) then l.map (fun p => if p.1 = i then (i, t) else p)
  else l ++ [(i, t)]

/-- api/routes._update_job_batch_counts (lines 61-68): recompute the job's
failed/succeeded counts by counting over the full set of persisted batch
status records. -/
def _update_job_batch_counts (s : StoreState) : StoreState :=
  match s.job with
  | none => s
  | some st =>
    { s with job := some { st with
        failed_batches := some ((s.batches.filter (fun b => b.status = "failed")).length),
        succeeded_batches :=
          some ((s.batches.filter (fun b => b.status = "succeeded")).length) } }

/-- batch_fetcher.fetch_single_batch_for_job (lines 205-236): re-chunk the
upload, bounds-check the index, re-run the outer retry loop for just that
index, persisting its status writes and (on success) its output.  Returns the
(ok, error) pair; the raised ValueError becomes the error constructor. -/
def fetch_single_batch_for_job (s : StoreState) (user_rows : List TweetRow)
    (chat : Nat → Nat → Except String String) (parse : String → List TweetRow)
    (mr bmr : Nat) (b m : ℚ) (clock : Nat) (batch_size batch_idx : Nat) :
    Except String (StoreState × Bool × Option String) :=
  let batches := _chunk user_rows batch_size
  if batch_idx ≥ batches.length then Except.error "batch_idx out of range"
  else
    let run := _fetch_batch_with_retries chat parse batch_idx mr bmr b m clock
    let s1 : StoreState :=
      { s with batches := run.writes.foldl upsertBatch s.batches,
               outputs := match run.output with
                          | some t => setOutput s.outputs batch_idx t
                          | none => s.outputs }
    if run.final.status = "succeeded" then Except.ok (s1, true, none)
    else Except.ok (s1, false, run.final.error)

/-- The body of api/routes._retry_batch from the status=running write onwards
(lines 87-113), reached once all guards have passed.  uploadExists models the
upload_path.exists() check; user_rows are the rows extract_users reads back
from the upload. -/
def retryBatchProceed (s : StoreState) (st : JobRecord) (user_rows : List TweetRow)
    (chat : Nat → Nat → Except String String) (parse : String → List TweetRow)
    (mr bmr : Nat) (b m : ℚ) (clock : Nat) (batch_idx : Int) : StoreState :=
  let stR : JobRecord := { st with status := "running" }
  let s1 : StoreState := { s with job := some stR }
  match fetch_single_batch_for_job s1 user_rows chat parse mr bmr b m clock
    st.batch_size batch_idx.toNat with
  | Except.error e =>
    { s1 with job := some { stR with
        error := some ("Batch " ++ toString batch_idx.toNat ++ " retry failed: " ++ e),
        status := "failed" } }
  | Except.ok (s2, _ok, _err) =>
    let s3 := _update_job_batch_counts s2
    match s3.job with
    | none => s3
    | some stC =>
      if stC.failed_batches.getD 0 = 0 then
        { s3 with job := some { stC with status := "done", error := none } }
      else
        { s3 with job := some { stC with status := "failed" } }

def _retry_batch (s : StoreState) (uploadExists : Bool) (user_rows : List TweetRow)
    (chat : Nat → Nat → Except String String) (parse : String → List TweetRow)
    (mr bmr : Nat) (b m : ℚ) (clock : Nat) (batch_idx : Int) : StoreState :=
  match s.job with
  | none => s
  | some st =>
    if st.batch_size = 0 then s
    else if uploadExists = false then s
    else
      match st.total_users with
      | some tu =>
        if batch_idx < 0 ∨ batch_idx ≥ (((tu + st.batch_size - 1) / st.batch_size : Nat) : Int)
        then s
        else retryBatchProceed s st user_rows chat parse mr bmr b m clock batch_idx
      | none => retryBatchProceed s st user_rows chat parse mr bmr b m clock batch_idx

/-- api/routes.retry_job_batch endpoint (lines 238-257): 404 if the job is
missing, 400 before any state change if the index is out of range, otherwise
an immediate "retrying" acknowledgement with the retry enqueued as a background
task (the Bool component). -/
def retry_job_batch (s : StoreState) (batch_idx : Int) :
    Except String String × StoreState × Bool :=
  match s.job with
  | none => (Except.error "Job not found", s, false)
  | some st =>
    match st.total_users with
    | some tu =>
      if st.batch_size ≠ 0 then
        if batch_idx < 0 ∨ batch_idx ≥ (((tu + st.batch_size - 1) / st.batch_size : Nat) : Int)
        then (Except.error "batch_idx out of range", s, false)
        else (Except.ok "retrying", s, true)
      else (Except.ok "retrying", s, true)
    | none => (Except.ok "retrying", s, true)

/-- Job record for the concrete retry scenario: one batch of size 1, currently
failed. -/
def jC7 : JobRecord :=
  { job_id := "j", status := "failed", created_at := 0, batch_size := 1,
    total_users := some 1, completed_batches := 1, total_batches := 1,
    failed_batches := some 1, succeeded_batches := some 0,
    error := some "1 batch(es) failed" }

/-- Previously persisted failed batch record for index 0. -/
def bC7 : BatchStatus :=
  { index := 0, status := "failed", attempts := 2, max_attempts := 2,
    error := some "Grok batch 0 failed: x", started_at := some 0, finished_at := some 1,
    last_attempt_at := some 0 }

/-- Store before the retry: the job and its one failed batch. -/
def sC7 : StoreState := { job := some jC7, batches := [bC7], outputs := [] }

/-- Upload rows backing the concrete retry. -/
def userRowsC7 : List TweetRow := [[("username", "u")]]

/-- Oracle that succeeds immediately on retry. -/
def chatOkC7 : Nat → Nat → Except String String := fun _ _ => Except.ok ""

/-- Job record and store for the concrete rejection scenario: 23 users in
batches of 10, so valid indices are 0..2. -/
def jC8 : JobRecord :=
  { job_id := "j", status := "done", created_at := 0, batch_size := 10,
    total_users := some 23, completed_batches := 3, total_batches := 3 }

/-- Store for the concrete rejection scenario. -/
def sC8 : StoreState := { job := some jC8, batches := [], outputs := [] }

/-! ## services/subscriptions.SubscriptionScheduler

Python source backend/services/subscriptions.py.  APScheduler is an external
collaborator, modelled at its interface: the scheduler owns a keyed set of
live jobs (job id "sub_<id>" mapped to its CronTrigger's hour and minute);
add_job with replace_existing=True replaces the entry for the key, remove_job
deletes it, get_job looks it up, and a live daily cron job's pending
next_run_time at query instant `now` is the earliest instant t >= now whose
time of day equals the trigger's hour:minute.  Subscription storage keeps the
fields the scheduler reads and writes. -/

structure Subscription where
  id : String
  enabled : Bool
  schedule_hour : Nat
  schedule_minute : Nat
  next_run : Option Nat := none
deriving DecidableEq

structure SchedState where
  trigJobs : List (String × Nat × Nat)
deriving DecidableEq

def schedJobId (sub_id : String) : String := "sub_" ++ sub_id

def getJob (st : SchedState) (jid : String) : Option (Nat × Nat) :=
  (st.trigJobs.find? (fun p => p.1 = jid)).map (fun p => p.2)

def removeJob (st : SchedState) (jid : String) : SchedState :=
  { trigJobs := st.trigJobs.filter (fun p => ¬(p.1 = jid)) }

/-- add_job with replace_existing=True. -/
def addJobReplacing (st : SchedState) (jid : String) (trig : Nat × Nat) : SchedState :=
  { trigJobs := (removeJob st jid).trigJobs ++ [(jid, trig)] }

def targetSecs (h m : Nat) : Nat := h * 3600 + m * 60

/-- Modelled from the spec and APScheduler's interface: the next fire instant
of a daily hour:minute cron trigger queried at `now` — the earliest t ≥ now
whose time of day is the target. -/
def nextFire (h m now : Nat) : Nat :=
  let tod := now % 86400
  let tgt := targetSecs h m
  if tod ≤ tgt then now - tod + tgt else now - tod + 86400 + tgt

def getSub (storage : List (String × Subscription)) (id : String) : Option Subscription :=
  (storage.find? (fun p => p.1 = id)).map (fun p => p.2)

def saveSub (storage : List (String × Subscription)) (id : String) (sub : Subscription) :
    List (String × Subscription) :=
  if storage.any (fun p => p.1 = id) then
    storage.map (fun p => if p.1 = id then (id, sub) else p)
  else storage ++ [(id, sub)]

/-- SubscriptionScheduler._schedule_subscription (lines 57-86): remove the
existing scheduler job if any, add the new cron job (replace_existing=True),
and persist the computed next_run on the subscription. -/
def _schedule_subscription (st : SchedState) (storage : List (String × Subscription))
    (sub : Subscription) (now : Nat) : SchedState × List (String × Subscription) :=
  let jid := schedJobId sub.id
  let st1 := if (getJob st jid).isSome then removeJob st jid else st
  let st2 := addJobReplacing st1 jid (sub.schedule_hour, sub.schedule_minute)
  let sub2 := { sub with next_run := some (nextFire sub.schedule_hour sub.schedule_minute now) }
  (st2, saveSub storage sub.id sub2)

/-- SubscriptionScheduler._unschedule_subscription (lines 88-93). -/
def _unschedule_subscription (st : SchedState) (sub_id : String) : SchedState :=
  if (getJob st (schedJobId sub_id)).isSome then removeJob st (schedJobId sub_id) else st

/-- SubscriptionScheduler.schedule_subscription (lines 167-173): re-read the
stored subscription; schedule it if present and enabled, else unschedule. -/
def schedule_subscription (st : SchedState) (storage : List (String × Subscription))
    (sub_id : String) (now : Nat) : SchedState × List (String × Subscription) :=
  match getSub storage sub_id with
  | some sub =>
    if sub.enabled then _schedule_subscription st storage sub now
    else (_unschedule_subscription st sub_id, storage)
  | none => (_unschedule_subscription st sub_id, storage)

/-- SubscriptionScheduler.get_next_run (lines 175-181) at query instant now. -/
def get_next_run (st : SchedState) (sub_id : String) (now : Nat) : Option Nat :=
  match getJob st (schedJobId sub_id) with
  | some (h, m) => some (nextFire h m now)
  | none => none

/-- api/routes.delete_sub (lines 408-420): 404 if absent, else unschedule the
live trigger and delete the stored subscription. -/
def delete_sub (st : SchedState) (storage : List (String × Subscription)) (sub_id : String) :
    SchedState × List (String × Subscription) :=
  match getSub storage sub_id with
  | none => (st, storage)
  | some _ =>
    (_unschedule_subscription st sub_id, storage.filter (fun p => ¬(p.1 = sub_id)))

/-- Number of live triggers registered for a scheduler job key. -/
def countKey (st : SchedState) (jid : String) : Nat :=
  (st.trigJobs.filter (fun p => p.1 = jid)).length

/-- Concrete enabled subscription for the C9 witness. -/
def subC9 : Subscription :=
  { id := "a", enabled := true, schedule_hour := 9, schedule_minute := 30 }

/-- Concrete disabled variant. -/
def subC9off : Subscription := { subC9 with enabled := false }

/-- A scheduler state that already holds a stale trigger for the subscription
(from an earlier edit) plus an unrelated one. -/
def stC9 : SchedState := { trigJobs := [("sub_a", (8, 0)), ("sub_b", (7, 15))] }

/-! ## Theorems -/

theorem chunk_nil {α : Type _} (size : Nat) : _chunk ([] : List α) size = [] := by
  simp [_chunk]

theorem chunk_cons {α : Type _} {items : List α} {size : Nat}
    (h : items ≠ []) (hs : size ≠ 0) :
    _chunk items size = items.take size :: _chunk (items.drop size) size := by
  match items, h with
  | a :: rest, _ =>
    rw [_chunk]
    simp [hs]

theorem chunk_flatten {α : Type _} (size : Nat) (hs : size ≠ 0) (items : List α) :
    (_chunk items size).flatten = items := by
  have H : ∀ n (l : List α), l.length ≤ n → (_chunk l size).flatten = l := by
    intro n
    induction n with
    | zero =>
      intro l hl
      have : l = [] := List.eq_nil_of_length_eq_zero (Nat.le_zero.mp hl)
      subst this
      simp [chunk_nil]
    | succ n ih =>
      intro l hl
      by_cases hle : l = []
      · subst hle; simp [chunk_nil]
      · rw [chunk_cons hle hs]
        have hlen : 0 < l.length := List.length_pos.mpr hle
        have hdrop : (l.drop size).length ≤ n := by
          simp only [List.length_drop]
          omega
        simp only [List.flatten_cons, ih (l.drop size) hdrop]
        exact List.take_append_drop size l
  exact H items.length items (Nat.le_refl _)

theorem chunk_length {α : Type _} (size : Nat) (hs : size ≠ 0) (items : List α) :
    (_chunk items size).length = (items.length + size - 1) / size := by
  have H : ∀ n (l : List α), l.length ≤ n →
      (_chunk l size).length = (l.length + size - 1) / size := by
    intro n
    induction n with
    | zero =>
      intro l hl
      have : l = [] := List.eq_nil_of_length_eq_zero (Nat.le_zero.mp hl)
      subst this
      rw [chunk_nil]
      simp only [List.length_nil, Nat.zero_add]
      exact (Nat.div_eq_of_lt (by omega)).symm
    | succ n ih =>
      intro l hl
      by_cases hle : l = []
      · subst hle
        rw [chunk_nil]
        simp only [List.length_nil, Nat.zero_add]
        exact (Nat.div_eq_of_lt (by omega)).symm
      · rw [chunk_cons hle hs]
        have hlen : 0 < l.length := List.length_pos.mpr hle
        have hdrop : (l.drop size).length ≤ n := by
          simp only [List.length_drop]; omega
        simp only [List.length_cons, ih (l.drop size) hdrop, List.length_drop]
        by_cases hcase : l.length ≤ size
        · have h1 : l.length - size = 0 := by omega
          rw [h1]
          have h2 : (size - 1) / size = 0 := Nat.div_eq_of_lt (by omega)
          rw [Nat.zero_add, h2]
          have h3 : (l.length + size - 1) / size = 1 := by
            apply Nat.div_eq_of_lt_le
            · omega
            · omega
          omega
        · have h1 : l.length - size + size - 1 + size = l.length + size - 1 := by omega
          rw [← h1, Nat.add_div_right _ (Nat.pos_of_ne_zero hs)]
  exact H items.length items (Nat.le_refl _)

theorem chunk_mem_bounds {α : Type _} (size : Nat) (hs : size ≠ 0) (items : List α) :
    ∀ c ∈ _chunk items size, c.length ≤ size ∧ c ≠ [] := by
  have H : ∀ n (l : List α), l.length ≤ n →
      ∀ c ∈ _chunk l size, c.length ≤ size ∧ c ≠ [] := by
    intro n
    induction n with
    | zero =>
      intro l hl c hc
      have : l = [] := List.eq_nil_of_length_eq_zero (Nat.le_zero.mp hl)
      subst this
      rw [chunk_nil] at hc
      exact absurd hc (List.not_mem_nil c)
    | succ n ih =>
      intro l hl c hc
      by_cases hle : l = []
      · subst hle; rw [chunk_nil] at hc; exact absurd hc (List.not_mem_nil c)
      · rw [chunk_cons hle hs] at hc
        have hlen : 0 < l.length := List.length_pos.mpr hle
        rcases List.mem_cons.mp hc with heq | hmem
        · subst heq
          constructor
          · simp [List.length_take]
          · simp only [ne_eq, List.take_eq_nil_iff]
            push_neg
            exact ⟨hs, hle⟩
        · have hdrop : (l.drop size).length ≤ n := by
            simp only [List.length_drop]; omega
          exact ih (l.drop size) hdrop c hmem
  exact H items.length items (Nat.le_refl _)

theorem chunk_dropLast_length {α : Type _} (size : Nat) (hs : size ≠ 0) (items : List α) :
    ∀ c ∈ (_chunk items size).dropLast, c.length = size := by
  have H : ∀ n (l : List α), l.length ≤ n →
      ∀ c ∈ (_chunk l size).dropLast, c.length = size := by
    intro n
    induction n with
    | zero =>
      intro l hl c hc
      have : l = [] := List.eq_nil_of_length_eq_zero (Nat.le_zero.mp hl)
      subst this
      rw [chunk_nil] at hc
      exact absurd hc (List.not_mem_nil c)
    | succ n ih =>
      intro l hl c hc
      by_cases hle : l = []
      · subst hle; rw [chunk_nil] at hc; exact absurd hc (List.not_mem_nil c)
      · rw [chunk_cons hle hs] at hc
        have hlen : 0 < l.length := List.length_pos.mpr hle
        by_cases hrest : _chunk (l.drop size) size = []
        · rw [hrest] at hc
          simp at hc
        · rw [List.dropLast_cons_of_ne_nil hrest] at hc
          rcases List.mem_cons.mp hc with heq | hmem
          · subst heq
            have hne : l.drop size ≠ [] := by
              intro hd
              rw [hd, chunk_nil] at hrest
              exact hrest rfl
            have : size < l.length := by
              by_contra hge
              push_neg at hge
              exact hne (List.drop_eq_nil_of_le hge)
            simp [List.length_take]
            omega
          · have hdrop : (l.drop size).length ≤ n := by
              simp only [List.length_drop]; omega
            exact ih (l.drop size) hdrop c hmem
  exact H items.length items (Nat.le_refl _)

/-- C1: splitting a row list of length R into batches of size B > 0 yields exactly
ceil(R/B) contiguous chunks, every non-last chunk has size exactly B, every chunk
is non-empty with size at most B, and concatenating the chunks in index order
reproduces the original row list exactly. -/
theorem claim_C1_chunking {α : Type _} (rows : List α) (B : Nat) (hB : 0 < B) :
    (_chunk rows B).length = (rows.length + B - 1) / B
    ∧ (_chunk rows B).flatten = rows
    ∧ (∀ c ∈ (_chunk rows B).dropLast, c.length = B)
    ∧ (∀ c ∈ _chunk rows B, c.length ≤ B ∧ c ≠ []) := by
  have hs : B ≠ 0 := Nat.pos_iff_ne_zero.mp hB
  exact ⟨chunk_length B hs rows, chunk_flatten B hs rows,
    chunk_dropLast_length B hs rows, chunk_mem_bounds B hs rows⟩

/-- Witness for C1: 23 rows with batch size 10 give 3 chunks (10, 10, 3) whose
concatenation is the original list (the concrete scenario from the spec). -/
theorem claim_C1_chunking_witness :
    (0 < 10)
    ∧ ((_chunk (List.range 23) 10).length = (23 + 10 - 1) / 10
      ∧ (_chunk (List.range 23) 10).flatten = List.range 23
      ∧ (∀ c ∈ (_chunk (List.range 23) 10).dropLast, c.length = 10)
      ∧ (∀ c ∈ _chunk (List.range 23) 10, c.length ≤ 10 ∧ c ≠ [])) := by
  refine ⟨by decide, ?_⟩
  have h := claim_C1_chunking (List.range 23) 10 (by decide)
  simpa using h

/-! ## Backoff and retry-loop lemmas -/

theorem innerLoop_sleeps (chat : Nat → Except String String) (parse : String → List TweetRow)
    (bidx mr : Nat) (b m : ℚ) :
    ∀ remaining attempt, ∃ n,
      (innerLoop chat parse bidx mr b m attempt remaining).sleeps
        = (List.range' attempt n).map (fun t => min (b * 2 ^ t) m) := by
  intro remaining
  induction remaining with
  | zero => intro attempt; exact ⟨0, rfl⟩
  | succ r ih =>
    intro attempt
    simp only [innerLoop]
    cases hch : chat attempt with
    | ok content => exact ⟨0, rfl⟩
    | error e =>
      by_cases hge : attempt ≥ mr
      · exact ⟨0, by simp [hge]⟩
      · obtain ⟨n, hn⟩ := ih (attempt + 1)
        refine ⟨n + 1, ?_⟩
        simp only [hge, if_false, hn, List.range'_succ, List.map_cons]

theorem innerSleep_formula (chat : Nat → Except String String) (parse : String → List TweetRow)
    (bidx mr : Nat) (b m : ℚ) (k : Nat)
    (h : k < (_fetch_single_batch chat parse bidx mr b m).sleeps.length) :
    (_fetch_single_batch chat parse bidx mr b m).sleeps[k]? = some (min (b * 2 ^ k) m) := by
  obtain ⟨n, hn⟩ := innerLoop_sleeps chat parse bidx mr b m (mr + 1) 0
  simp only [_fetch_single_batch] at h ⊢
  rw [hn] at h ⊢
  have hk : k < n := by simpa [List.length_range'] using h
  have hl : k < (List.range' 0 n).length := by simpa [List.length_range'] using hk
  rw [List.getElem?_map, List.getElem?_eq_getElem hl, List.getElem_range']
  simp

theorem outerLoop_sleeps (chat : Nat → Nat → Except String String)
    (parse : String → List TweetRow) (bidx mr bmr : Nat) (b m : ℚ) :
    ∀ remaining attempt st clock, ∃ n,
      (outerLoop chat parse bidx mr bmr b m st clock attempt remaining).outerSleeps
        = (List.range' attempt n).map (fun t => min (b * 2 ^ t) m) := by
  intro remaining
  induction remaining with
  | zero => intro attempt st clock; exact ⟨0, rfl⟩
  | succ r ih =>
    intro attempt st clock
    simp only [outerLoop]
    cases hres : (_fetch_single_batch (chat attempt) parse bidx mr b m).result with
    | ok rows => exact ⟨0, rfl⟩
    | error e =>
      by_cases hlt : attempt < bmr
      · obtain ⟨n, hn⟩ :=
          ih (attempt + 1) (failedStatus (runningStatus st attempt clock) e clock) (clock + 2)
        refine ⟨n + 1, ?_⟩
        simp only [hlt, if_true, hn, List.range'_succ, List.map_cons]
      · exact ⟨0, by simp [hlt]⟩

theorem outerSleep_formula (chat : Nat → Nat → Except String String)
    (parse : String → List TweetRow) (bidx mr bmr : Nat) (b m : ℚ) (clock k : Nat)
    (h : k < (_fetch_batch_with_retries chat parse bidx mr bmr b m clock).outerSleeps.length) :
    (_fetch_batch_with_retries chat parse bidx mr bmr b m clock).outerSleeps[k]?
      = some (min (b * 2 ^ k) m) := by
  obtain ⟨n, hn⟩ := outerLoop_sleeps chat parse bidx mr bmr b m (bmr + 1) 0
    (initialBatchStatus bidx bmr clock) (clock + 1)
  simp only [_fetch_batch_with_retries] at h ⊢
  rw [hn] at h ⊢
  have hk : k < n := by simpa [List.length_range'] using h
  have hl : k < (List.range' 0 n).length := by simpa [List.length_range'] using hk
  rw [List.getElem?_map, List.getElem?_eq_getElem hl, List.getElem_range']
  simp

theorem outerLoop_all_fail (chat : Nat → Nat → Except String String)
    (parse : String → List TweetRow) (bidx mr bmr : Nat) (b m : ℚ) :
    ∀ remaining attempt st clock,
      attempt + remaining = bmr + 1 → 0 < remaining →
      (∀ k, k < bmr + 1 →
        (_fetch_single_batch (chat k) parse bidx mr b m).result.isOk = false) →
      ((outerLoop chat parse bidx mr bmr b m st clock attempt remaining).final.status = "failed"
      ∧ (outerLoop chat parse bidx mr bmr b m st clock attempt remaining).final.attempts = bmr + 1
      ∧ (outerLoop chat parse bidx mr bmr b m st clock attempt remaining).final.index = st.index
      ∧ (outerLoop chat parse bidx mr bmr b m st clock attempt remaining).final.max_attempts
          = st.max_attempts
      ∧ (outerLoop chat parse bidx mr bmr b m st clock attempt remaining).output = none
      ∧ ∀ e, (_fetch_single_batch (chat bmr) parse bidx mr b m).result = .error e →
          (outerLoop chat parse bidx mr bmr b m st clock attempt remaining).final.error
            = some e) := by
  intro remaining
  induction remaining with
  | zero => intro attempt st clock _ h0; omega
  | succ r ih =>
    intro attempt st clock hsum _ hfail
    have hatt : attempt < bmr + 1 := by omega
    have hko := hfail attempt hatt
    simp only [outerLoop]
    cases hres : (_fetch_single_batch (chat attempt) parse bidx mr b m).result with
    | ok rows => rw [hres] at hko; simp [Except.isOk, Except.toBool] at hko
    | error e =>
      by_cases hlt : attempt < bmr
      · have hr : 0 < r := by omega
        have hsum' : (attempt + 1) + r = bmr + 1 := by omega
        have := ih (attempt + 1) (failedStatus (runningStatus st attempt clock) e clock)
          (clock + 2) hsum' hr hfail
        simpa [hlt, failedStatus, runningStatus] using this
      · have hab : attempt = bmr := by omega
        subst hab
        refine ⟨by simp [hlt, failedStatus, runningStatus],
          by simp [hlt, failedStatus, runningStatus],
          by simp [hlt, failedStatus, runningStatus],
          by simp [hlt, failedStatus, runningStatus],
          by simp [hlt, failedStatus, runningStatus], ?_⟩
        intro e0 he0
        rw [hres] at he0
        cases he0
        simp [hlt, failedStatus, runningStatus]

theorem fetch_batch_all_fail (chat : Nat → Nat → Except String String)
    (parse : String → List TweetRow) (bidx mr bmr : Nat) (b m : ℚ) (clock : Nat)
    (hfail : ∀ k, k < bmr + 1 →
      (_fetch_single_batch (chat k) parse bidx mr b m).result.isOk = false) :
    ((_fetch_batch_with_retries chat parse bidx mr bmr b m clock).final.status = "failed"
    ∧ (_fetch_batch_with_retries chat parse bidx mr bmr b m clock).final.attempts = bmr + 1
    ∧ (_fetch_batch_with_retries chat parse bidx mr bmr b m clock).final.index = bidx
    ∧ (_fetch_batch_with_retries chat parse bidx mr bmr b m clock).final.max_attempts = bmr + 1
    ∧ (_fetch_batch_with_retries chat parse bidx mr bmr b m clock).output = none
    ∧ ∀ e, (_fetch_single_batch (chat bmr) parse bidx mr b m).result = .error e →
        (_fetch_batch_with_retries chat parse bidx mr bmr b m clock).final.error = some e) := by
  have h := outerLoop_all_fail chat parse bidx mr bmr b m (bmr + 1) 0
    (initialBatchStatus bidx bmr clock) (clock + 1) (by omega) (by omega) hfail
  simpa [_fetch_batch_with_retries, initialBatchStatus] using h

theorem fetch_batch_first_try_success (chat : Nat → Nat → Except String String)
    (parse : String → List TweetRow) (bidx mr bmr : Nat) (b m : ℚ) (clock : Nat)
    (rows : List TweetRow)
    (hok : (_fetch_single_batch (chat 0) parse bidx mr b m).result = .ok rows) :
    (_fetch_batch_with_retries chat parse bidx mr bmr b m clock).final.status = "succeeded"
    ∧ (_fetch_batch_with_retries chat parse bidx mr bmr b m clock).output
        = some (_rows_to_csv rows) := by
  simp [_fetch_batch_with_retries, outerLoop, hok, succeededStatus, runningStatus]

theorem outerLoop_output_shape (chat : Nat → Nat → Except String String)
    (parse : String → List TweetRow) (bidx mr bmr : Nat) (b m : ℚ) :
    ∀ remaining attempt st clock t,
      (outerLoop chat parse bidx mr bmr b m st clock attempt remaining).output = some t →
      ∃ rows, t = _rows_to_csv rows := by
  intro remaining
  induction remaining with
  | zero => intro attempt st clock t h; simp [outerLoop] at h
  | succ r ih =>
    intro attempt st clock t h
    simp only [outerLoop] at h
    cases hres : (_fetch_single_batch (chat attempt) parse bidx mr b m).result with
    | ok rows =>
      rw [hres] at h
      simp at h
      exact ⟨rows, h.symm⟩
    | error e =>
      rw [hres] at h
      by_cases hlt : attempt < bmr
      · simp only [hlt, if_true] at h
        exact ih (attempt + 1) (failedStatus (runningStatus st attempt clock) e clock)
          (clock + 2) t h
      · simp [hlt] at h

theorem outerLoop_writes_index (chat : Nat → Nat → Except String String)
    (parse : String → List TweetRow) (bidx mr bmr : Nat) (b m : ℚ) :
    ∀ remaining attempt st clock,
      ∀ w ∈ (outerLoop chat parse bidx mr bmr b m st clock attempt remaining).writes,
        w.index = st.index := by
  intro remaining
  induction remaining with
  | zero => intro attempt st clock w hw; simp [outerLoop] at hw
  | succ r ih =>
    intro attempt st clock w hw
    simp only [outerLoop] at hw
    cases hres : (_fetch_single_batch (chat attempt) parse bidx mr b m).result with
    | ok rows =>
      rw [hres] at hw
      simp only [List.mem_cons, List.mem_singleton] at hw
      rcases hw with h | h | h
      · subst h; rfl
      · subst h; rfl
      · simp at h
    | error e =>
      rw [hres] at hw
      by_cases hlt : attempt < bmr
      · simp only [hlt, if_true, List.mem_cons] at hw
        rcases hw with h | h | h
        · subst h; rfl
        · subst h; rfl
        · have := ih (attempt + 1) (failedStatus (runningStatus st attempt clock) e clock)
            (clock + 2) w h
          simpa [failedStatus, runningStatus] using this
      · simp only [hlt, if_false, List.mem_cons] at hw
        rcases hw with h | h | h
        · subst h; rfl
        · subst h; rfl
        · simp at h

/-- C5: a batch whose every outer attempt fails ends with a persisted record
having status failed, attempts = batch_max_retries + 1, and the last underlying
error retained, while a sibling batch whose first attempt succeeds still ends
succeeded in the same job run. -/
theorem claim_C5_exhausted_batch (chat : Nat → Nat → Nat → Except String String)
    (parse : String → List TweetRow) (total mr bmr : Nat) (b m : ℚ) (clock i j : Nat)
    (hi : i < total) (hj : j < total)
    (hifail : ∀ k, k < bmr + 1 →
      (_fetch_single_batch (chat i k) parse i mr b m).result.isOk = false)
    (e : String)
    (hlast : (_fetch_single_batch (chat i bmr) parse i mr b m).result = .error e)
    (rows : List TweetRow)
    (hjok : (_fetch_single_batch (chat j 0) parse j mr b m).result = .ok rows) :
    (∃ fi, ((fetch_all_tweets chat parse total mr bmr b m clock).2)[i]? = some fi
      ∧ fi.status = "failed" ∧ fi.attempts = bmr + 1 ∧ fi.error = some e)
    ∧ (∃ fj, ((fetch_all_tweets chat parse total mr bmr b m clock).2)[j]? = some fj
      ∧ fj.status = "succeeded") := by
  have h2 : (fetch_all_tweets chat parse total mr bmr b m clock).2
      = (List.range total).map
          (fun k => (_fetch_batch_with_retries (chat k) parse k mr bmr b m clock).final) := by
    simp [fetch_all_tweets, fetch_all_core, List.map_map]
  have hall := fetch_batch_all_fail (chat i) parse i mr bmr b m clock hifail
  have hsj := fetch_batch_first_try_success (chat j) parse j mr bmr b m clock rows hjok
  constructor
  · refine ⟨(_fetch_batch_with_retries (chat i) parse i mr bmr b m clock).final, ?_, ?_, ?_, ?_⟩
    · rw [h2, List.getElem?_map, List.getElem?_range hi]
      rfl
    · exact hall.1
    · exact hall.2.1
    · exact hall.2.2.2.2.2 e hlast
  · refine ⟨(_fetch_batch_with_retries (chat j) parse j mr bmr b m clock).final, ?_, hsj.1⟩
    rw [h2, List.getElem?_map, List.getElem?_range hj]
    rfl

/-- Witness for C5 at a concrete two-batch job: batch 0 exhausts 2 attempts
(batch_max_retries = 1) and ends failed with the composed error message; batch
1 succeeds. -/
theorem claim_C5_exhausted_batch_witness :
    ((0 : Nat) < 2 ∧ (1 : Nat) < 2
    ∧ (∀ k, k < 1 + 1 →
        (_fetch_single_batch (chatC5 0 k) parse0 0 0 1 8).result.isOk = false)
    ∧ (_fetch_single_batch (chatC5 0 1) parse0 0 0 1 8).result
        = .error "Grok batch 0 failed: boom"
    ∧ (_fetch_single_batch (chatC5 1 0) parse0 1 0 1 8).result = .ok [])
    ∧ ((∃ fi, ((fetch_all_tweets chatC5 parse0 2 0 1 1 8 0).2)[0]? = some fi
        ∧ fi.status = "failed" ∧ fi.attempts = 1 + 1
        ∧ fi.error = some "Grok batch 0 failed: boom")
      ∧ (∃ fj, ((fetch_all_tweets chatC5 parse0 2 0 1 1 8 0).2)[1]? = some fj
        ∧ fj.status = "succeeded")) := by
  refine ⟨⟨by decide, by decide, by decide, by decide, by decide⟩, ?_⟩
  exact claim_C5_exhausted_batch chatC5 parse0 2 0 1 1 8 0 0 1 (by decide) (by decide)
    (by decide) "Grok batch 0 failed: boom" (by decide) [] (by decide)

/-- C6 counterexample: the two retry loops do not have independently configured
backoff bounds.  _init_client_and_config reads a single configured pair
(retry.backoff_base_s, retry.backoff_max_s) and hands it to both the inner and
the outer loop, so no retry configuration can make the first inner backoff wait
differ from the first outer backoff wait (here with both loops pinned to their
default attempt budgets so that both actually wait). -/
theorem claim_C6_counterexample :
    ¬ ∃ d : RetryConfigDict, d.max_retries = some 2 ∧ d.batch_max_retries = some 3 ∧
      (_fetch_single_batch chatFailI parse0 0 (_init_retry_settings d).max_retries
        (_init_retry_settings d).backoff_base (_init_retry_settings d).backoff_max).sleeps.head?
      ≠ (fetchBatchCfg d chatFailO parse0 0 0).outerSleeps.head? := by
  rintro ⟨d, h1, h2, hne⟩
  apply hne
  have hmr : (_init_retry_settings d).max_retries = 2 := by simp [_init_retry_settings, h1]
  have hbmr : (_init_retry_settings d).batch_max_retries = 3 := by
    simp [_init_retry_settings, h2]
  rw [hmr]
  simp only [fetchBatchCfg, hmr, hbmr]
  simp [_fetch_batch_with_retries, _fetch_single_batch, outerLoop, innerLoop,
    chatFailI, chatFailO, parse0]

/-- C6 amended: in both retry loops the k-th backoff wait equals
min(base_delay * 2^k, max_delay) for the loop's own bounds parameters, and the
two loops have independently configured maximum attempt counts
(retry.max_retries vs retry.batch_max_retries) — but the program wires the one
configured bounds pair (retry.backoff_base_s, retry.backoff_max_s) from
_init_client_and_config into both loops rather than configuring each loop's
bounds independently. -/
theorem claim_C6_backoff_amended (chat1 : Nat → Except String String)
    (chat2 : Nat → Nat → Except String String) (parse : String → List TweetRow)
    (bidx1 bidx2 mr1 mr2 bmr : Nat) (b1 m1 b2 m2 : ℚ) (clock : Nat) :
    (∀ k, k < (_fetch_single_batch chat1 parse bidx1 mr1 b1 m1).sleeps.length →
      (_fetch_single_batch chat1 parse bidx1 mr1 b1 m1).sleeps[k]?
        = some (min (b1 * 2 ^ k) m1))
    ∧ (∀ k, k < (_fetch_batch_with_retries chat2 parse bidx2 mr2 bmr b2 m2 clock).outerSleeps.length →
      (_fetch_batch_with_retries chat2 parse bidx2 mr2 bmr b2 m2 clock).outerSleeps[k]?
        = some (min (b2 * 2 ^ k) m2))
    ∧ (∀ d : RetryConfigDict, fetchBatchCfg d chat2 parse bidx2 clock
        = _fetch_batch_with_retries chat2 parse bidx2 (_init_retry_settings d).max_retries
            (_init_retry_settings d).batch_max_retries (_init_retry_settings d).backoff_base
            (_init_retry_settings d).backoff_max clock) := by
  refine ⟨fun k h => innerSleep_formula chat1 parse bidx1 mr1 b1 m1 k h,
    fun k h => outerSleep_formula chat2 parse bidx2 mr2 bmr b2 m2 clock k h,
    fun d => rfl⟩

/-- Witness for C6 amended: with base 3 and cap 4, the always-failing inner
loop's waits are [3, 4, 4] (mr = 3) and the outer loop's are [3, 4] (bmr = 2),
matching the formula at every index. -/
theorem claim_C6_backoff_amended_witness :
    ((0 : Nat) < (_fetch_single_batch chatFailI parse0 0 3 3 4).sleeps.length
    ∧ (1 : Nat) < (_fetch_single_batch chatFailI parse0 0 3 3 4).sleeps.length
    ∧ (1 : Nat) < (_fetch_batch_with_retries chatFailO parse0 0 3 2 3 4 0).outerSleeps.length)
    ∧ ((_fetch_single_batch chatFailI parse0 0 3 3 4).sleeps[0]? = some (min (3 * 2 ^ 0) 4)
    ∧ (_fetch_single_batch chatFailI parse0 0 3 3 4).sleeps[1]? = some (min (3 * 2 ^ 1) 4)
    ∧ (_fetch_batch_with_retries chatFailO parse0 0 3 2 3 4 0).outerSleeps[1]?
        = some (min (3 * 2 ^ 1) 4)) := by
  have h := claim_C6_backoff_amended chatFailI chatFailO parse0 0 0 3 3 2 3 4 3 4 0
  refine ⟨⟨by decide, by decide, by decide⟩, ?_, ?_, ?_⟩
  · exact h.1 0 (by decide)
  · exact h.1 1 (by decide)
  · exact h.2.1 1 (by decide)

theorem collapseRuns_replicate (s : String) :
    ∀ n (l : List String), collapseRuns (s :: List.replicate n s ++ l) = collapseRuns (s :: l) := by
  intro n
  induction n with
  | zero => intro l; rfl
  | succ k ih =>
    intro l
    have h : s :: List.replicate (k + 1) s ++ l = s :: s :: (List.replicate k s ++ l) := by
      simp [List.replicate_succ]
    rw [h]
    have h2 : collapseRuns (s :: s :: (List.replicate k s ++ l))
        = collapseRuns (s :: (List.replicate k s ++ l)) := by
      cases hrl : List.replicate k s ++ l <;> simp [collapseRuns]
    rw [h2]
    exact ih l

theorem getLast?_append_pair {α : Type _} (l : List α) (x y : α) :
    (l ++ [x, y]).getLast? = some y := by
  have h : l ++ [x, y] = (l ++ [x]) ++ [y] := by simp
  rw [h]
  exact List.getLast?_concat _

/-- C2: end-to-end job lifecycle.  If every batch succeeded and summarization
completes, the job record passes through exactly running, summarizing, done and
the merged csv is saved; if at least one batch ended failed, the final job
record is failed with a non-null error and no merged output is saved for that
run; if all batches succeeded but summarization raises, the final record is
failed. -/
theorem claim_C2_job_lifecycle (job_id csv_text : String) (sts : List BatchStatus)
    (summ : String → Except String String) (bs tu clock : Nat) :
    ((∀ b ∈ sts, b.status = "succeeded") →
      (∀ s, summ csv_text = .ok s →
        collapseRuns ((run_job job_id (.ok (csv_text, sts)) summ bs tu clock).writes.map
            (fun j => j.status)) = ["running", "summarizing", "done"]
        ∧ (run_job job_id (.ok (csv_text, sts)) summ bs tu clock).savedOutput = some csv_text))
    ∧ ((∃ b ∈ sts, b.status = "failed") →
      ∃ jf, (run_job job_id (.ok (csv_text, sts)) summ bs tu clock).writes.getLast? = some jf
        ∧ jf.status = "failed" ∧ jf.error.isSome
        ∧ (run_job job_id (.ok (csv_text, sts)) summ bs tu clock).savedOutput = none)
    ∧ ((∀ b ∈ sts, b.status = "succeeded") →
      (∀ e, summ csv_text = .error e →
        ∃ jf, (run_job job_id (.ok (csv_text, sts)) summ bs tu clock).writes.getLast? = some jf
          ∧ jf.status = "failed")) := by
  refine ⟨?_, ?_, ?_⟩
  · intro hall s hs
    have hfail : (sts.filter (fun b => b.status = "failed")).length = 0 := by
      rw [List.length_eq_zero, List.filter_eq_nil_iff]
      intro b hb
      simp [hall b hb]
    constructor
    · have hw : (run_job job_id (.ok (csv_text, sts)) summ bs tu clock).writes.map
          (fun j => j.status)
          = "running" :: List.replicate sts.length "running" ++ ["summarizing", "done"] := by
        simp only [run_job, hfail, Nat.lt_irrefl, if_false, hs]
        simp only [List.map_cons, List.map_append, List.map_map, List.map_nil]
        rw [show ((fun j : JobRecord => j.status) ∘ (fun c : Nat =>
            ({ job_id := job_id, status := "running", created_at := clock,
               batch_size := bs, total_users := some tu, completed_batches := c + 1,
               total_batches := (tu + bs - 1) / bs } : JobRecord)))
            = (fun _ : Nat => "running") from rfl]
        rw [List.map_const', List.length_range]
      rw [hw, collapseRuns_replicate "running" sts.length]
      rfl
    · simp [run_job, hfail, hs]
  · rintro ⟨b, hb, hbf⟩
    have hfail : 0 < (sts.filter (fun x => x.status = "failed")).length := by
      have hm : b ∈ sts.filter (fun x => x.status = "failed") :=
        List.mem_filter.mpr ⟨hb, by simp [hbf]⟩
      exact List.length_pos.mpr (List.ne_nil_of_mem hm)
    simp only [run_job, hfail, if_true]
    refine ⟨_, List.getLast?_concat _, ?_, ?_, ?_⟩ <;> trivial
  · intro hall e he
    have hfail : (sts.filter (fun b => b.status = "failed")).length = 0 := by
      rw [List.length_eq_zero, List.filter_eq_nil_iff]
      intro b hb
      simp [hall b hb]
    simp only [run_job, hfail, Nat.lt_irrefl, if_false, he]
    refine ⟨_, getLast?_append_pair _ _ _, ?_⟩
    trivial

/-- Witness for C2 at a concrete job: two succeeded batch records and a
summarizer that succeeds on the merged text. -/
theorem claim_C2_job_lifecycle_witness :
    (∀ b ∈ [initialBatchStatus 0 1 0, initialBatchStatus 1 1 0].map
        (fun st => { st with status := "succeeded" }), b.status = "succeeded")
    ∧ ((fun _ : String => (Except.ok "sum" : Except String String)) "csv" = .ok "sum")
    ∧ (collapseRuns ((run_job "j" (.ok ("csv",
          [initialBatchStatus 0 1 0, initialBatchStatus 1 1 0].map
            (fun st => { st with status := "succeeded" })))
          (fun _ => .ok "sum") 10 23 0).writes.map (fun j => j.status))
        = ["running", "summarizing", "done"]
      ∧ (run_job "j" (.ok ("csv",
          [initialBatchStatus 0 1 0, initialBatchStatus 1 1 0].map
            (fun st => { st with status := "succeeded" })))
          (fun _ => .ok "sum") 10 23 0).savedOutput = some "csv") := by
  refine ⟨by decide, rfl, ?_⟩
  exact (claim_C2_job_lifecycle "j" "csv"
    ([initialBatchStatus 0 1 0, initialBatchStatus 1 1 0].map
      (fun st => { st with status := "succeeded" }))
    (fun _ => .ok "sum") 10 23 0).1 (by decide) "sum" rfl

/-! ## Aggregation lemmas -/

theorem mergeFold_missing (g : Nat → Option String) :
    ∀ (l : List BatchStatus) (c : List String) (msg : List Nat),
      (l.foldl (mergeStep g) (c, msg)).2
        = msg ++ (l.filter (fun b => outputAbsent (g b.index))).map (fun b => b.index) := by
  intro l
  induction l with
  | nil => intro c msg; simp
  | cons b l ih =>
    intro c msg
    simp only [List.foldl_cons]
    cases hg : g b.index with
    | none =>
      have hstep : mergeStep g (c, msg) b = (c, msg ++ [b.index]) := by
        simp [mergeStep, hg]
      rw [hstep, ih]
      simp [List.filter_cons, outputAbsent, hg]
    | some t =>
      by_cases ht : t = ""
      · have hstep : mergeStep g (c, msg) b = (c, msg ++ [b.index]) := by
          simp [mergeStep, hg, ht]
        rw [hstep, ih]
        simp [List.filter_cons, outputAbsent, hg, ht]
      · have habs : outputAbsent (g b.index) = false := by
          simp [outputAbsent, hg, ht]
        by_cases hl : aggLines t = []
        · have hstep : mergeStep g (c, msg) b = (c, msg) := by
            simp [mergeStep, hg, ht, hl]
          rw [hstep, ih]
          simp [List.filter_cons, habs]
        · by_cases hc : c = []
          · have hstep : mergeStep g (c, msg) b = (aggLines t, msg) := by
              simp [mergeStep, hg, ht, hl, hc]
            rw [hstep, ih]
            simp [List.filter_cons, habs]
          · have hstep : mergeStep g (c, msg) b = (c ++ (aggLines t).drop 1, msg) := by
              simp [mergeStep, hg, ht, hl, hc]
            rw [hstep, ih]
            simp [List.filter_cons, habs]

theorem mergeFold_lines_of_ne (g : Nat → Option String) :
    ∀ (l : List BatchStatus) (c : List String) (msg : List Nat),
      c ≠ [] →
      (∀ b ∈ l, outputAbsent (g b.index) = false) →
      (l.foldl (mergeStep g) (c, msg)).1
        = c ++ (((l.map (lineOf g)).filter (fun ls => ls ≠ [])).map
            (fun ls => ls.drop 1)).flatten := by
  intro l
  induction l with
  | nil => intro c msg _ _; simp
  | cons b l ih =>
    intro c msg hc hall
    have hb := hall b (List.mem_cons_self b l)
    cases hg : g b.index with
    | none => rw [hg] at hb; simp [outputAbsent] at hb
    | some t =>
      rw [hg] at hb
      have ht : ¬(t = "") := by
        intro h
        rw [h] at hb
        simp [outputAbsent] at hb
      have hline : lineOf g b = aggLines t := by simp [lineOf, hg]
      simp only [List.foldl_cons]
      by_cases hl : aggLines t = []
      · have hstep : mergeStep g (c, msg) b = (c, msg) := by
          simp [mergeStep, hg, ht, hl]
        rw [hstep, ih c msg hc (fun x hx => hall x (List.mem_cons_of_mem b hx))]
        simp [List.map_cons, List.filter_cons, hline, hl]
      · have hstep : mergeStep g (c, msg) b = (c ++ (aggLines t).drop 1, msg) := by
          simp [mergeStep, hg, ht, hl, hc]
        rw [hstep, ih (c ++ (aggLines t).drop 1) msg (by simp [hc])
          (fun x hx => hall x (List.mem_cons_of_mem b hx))]
        simp only [List.map_cons, List.filter_cons, hline, hl]
        simp [hl, List.append_assoc]

theorem mergeFold_lines (g : Nat → Option String) :
    ∀ (l : List BatchStatus) (msg : List Nat),
      (∀ b ∈ l, outputAbsent (g b.index) = false) →
      (l.foldl (mergeStep g) ([], msg)).1 = headerMergeSpec (l.map (lineOf g)) := by
  intro l
  induction l with
  | nil => intro msg _; simp [headerMergeSpec]
  | cons b l ih =>
    intro msg hall
    have hb := hall b (List.mem_cons_self b l)
    cases hg : g b.index with
    | none => rw [hg] at hb; simp [outputAbsent] at hb
    | some t =>
      rw [hg] at hb
      have ht : ¬(t = "") := by
        intro h
        rw [h] at hb
        simp [outputAbsent] at hb
      have hline : lineOf g b = aggLines t := by simp [lineOf, hg]
      simp only [List.foldl_cons]
      by_cases hl : aggLines t = []
      · have hstep : mergeStep g ([], msg) b = ([], msg) := by
          simp [mergeStep, hg, ht, hl]
        rw [hstep, ih msg (fun x hx => hall x (List.mem_cons_of_mem b hx))]
        simp [headerMergeSpec, List.map_cons, List.filter_cons, hline, hl]
      · have hstep : mergeStep g ([], msg) b = (aggLines t, msg) := by
          simp [mergeStep, hg, ht, hl]
        rw [hstep, mergeFold_lines_of_ne g l (aggLines t) msg hl
          (fun x hx => hall x (List.mem_cons_of_mem b hx))]
        simp [headerMergeSpec, List.map_cons, List.filter_cons, hline, hl]

theorem aggregate_savedOutput_eq (st : JobRecord) (batches : List BatchStatus)
    (g : Nat → Option String) (summarize : Bool) (summ : String → Except String String)
    (hne : batches.filter (fun b => b.status = "succeeded") ≠ [])
    (hmiss : ((List.insertionSort (fun a b => a.index ≤ b.index)
        (batches.filter (fun b => b.status = "succeeded"))).foldl
          (mergeStep g) ([], [])).2 = []) :
    (_aggregate_job (some st) batches g summarize summ).savedOutput
      = some (mergedText (((List.insertionSort (fun a b => a.index ≤ b.index)
          (batches.filter (fun b => b.status = "succeeded"))).foldl
            (mergeStep g) ([], [])).1)) := by
  simp only [_aggregate_job, hne, if_false, hmiss, ne_eq, not_true_eq_false]
  by_cases hs : summarize
  · subst hs
    cases hr : summ (mergedText (((List.insertionSort (fun a b => a.index ≤ b.index)
        (batches.filter (fun b => b.status = "succeeded"))).foldl
          (mergeStep g) ([], [])).1)) <;> simp [hr]
  · simp [hs]

/-- C3: with the batch records sorted by index, at least one succeeded batch,
and every succeeded batch's output present, the aggregator's merged output is
exactly the header-preserving concatenation described by the spec (first
non-empty output kept whole, every later non-empty output contributes all but
its first line, placeholder header if nothing remains); concretely, merging
outputs with lines [h, a1, a2] and [h, b1] yields one header line followed by
a1, a2, b1. -/
theorem claim_C3_header_merge (st : JobRecord) (batches : List BatchStatus)
    (g : Nat → Option String) (summarize : Bool) (summ : String → Except String String) :
    ((batches.Pairwise (fun a b => a.index ≤ b.index)) →
      (∃ b ∈ batches, b.status = "succeeded") →
      (∀ b ∈ batches, b.status = "succeeded" → outputAbsent (g b.index) = false) →
      (_aggregate_job (some st) batches g summarize summ).savedOutput
        = some (mergedText (headerMergeSpec
            ((batches.filter (fun b => b.status = "succeeded")).map (lineOf g)))))
    ∧ (_aggregate_job (some jC3) [bC3a, bC3b] gC3 false summFail).savedOutput
        = some "h\na1\na2\nb1\n" := by
  constructor
  · intro hsorted hex hall
    obtain ⟨b0, hb0, hb0s⟩ := hex
    have hne : batches.filter (fun b => b.status = "succeeded") ≠ [] := by
      intro h
      rw [List.filter_eq_nil_iff] at h
      exact absurd (by simp [hb0s]) (h b0 hb0)
    have hsortedf : List.Sorted (fun a b : BatchStatus => a.index ≤ b.index)
        (batches.filter (fun b => b.status = "succeeded")) :=
      List.Pairwise.filter _ hsorted
    have hsort_eq := List.Sorted.insertionSort_eq hsortedf
    have hallf : ∀ x ∈ batches.filter (fun b => b.status = "succeeded"),
        outputAbsent (g x.index) = false := by
      intro x hx
      have hm := List.mem_filter.mp hx
      exact hall x hm.1 (by simpa using hm.2)
    have hmiss : ((List.insertionSort (fun a b : BatchStatus => a.index ≤ b.index)
        (batches.filter (fun b => b.status = "succeeded"))).foldl
          (mergeStep g) ([], [])).2 = [] := by
      rw [hsort_eq, mergeFold_missing]
      have hfe : (batches.filter (fun b => b.status = "succeeded")).filter
          (fun b => outputAbsent (g b.index)) = [] := by
        rw [List.filter_eq_nil_iff]
        intro x hx
        simp [hallf x hx]
      rw [hfe]
      simp
    rw [aggregate_savedOutput_eq st batches g summarize summ hne hmiss]
    rw [hsort_eq, mergeFold_lines g _ [] hallf]
  · decide

/-- Witness for C3: the general conjunct applied to the concrete two-batch
scenario reproduces the concrete merged output. -/
theorem claim_C3_header_merge_witness :
    (([bC3a, bC3b] : List BatchStatus).Pairwise (fun a b => a.index ≤ b.index)
    ∧ (∃ b ∈ [bC3a, bC3b], b.status = "succeeded")
    ∧ (∀ b ∈ [bC3a, bC3b], b.status = "succeeded" → outputAbsent (gC3 b.index) = false))
    ∧ (_aggregate_job (some jC3) [bC3a, bC3b] gC3 true summFail).savedOutput
        = some (mergedText (headerMergeSpec
            (([bC3a, bC3b].filter (fun b => b.status = "succeeded")).map (lineOf gC3)))) := by
  refine ⟨⟨by decide, by decide, by decide⟩, ?_⟩
  exact (claim_C3_header_merge jC3 [bC3a, bC3b] gC3 true summFail).1
    (by decide) (by decide) (by decide)

theorem aggregate_done_eq (st : JobRecord) (batches : List BatchStatus)
    (g : Nat → Option String) (summarize : Bool) (summ : String → Except String String)
    (hne : batches.filter (fun b => b.status = "succeeded") ≠ [])
    (hmiss : ((List.insertionSort (fun a b => a.index ≤ b.index)
        (batches.filter (fun b => b.status = "succeeded"))).foldl
          (mergeStep g) ([], [])).2 = [])
    (hsum : summarize = false ∨ ∃ s, summ (mergedText
        (((List.insertionSort (fun a b => a.index ≤ b.index)
          (batches.filter (fun b => b.status = "succeeded"))).foldl
            (mergeStep g) ([], [])).1)) = .ok s) :
    (_aggregate_job (some st) batches g summarize summ).finalJob
      = some { st with status := "done", error := none } := by
  simp only [_aggregate_job, hne, if_false, hmiss, ne_eq, not_true_eq_false]
  rcases hsum with hs | ⟨s, hs⟩
  · subst hs
    simp
  · simp only [hs]
    by_cases hb : summarize
    · subst hb
      simp [hs]
    · simp [hb]

theorem aggregate_sumfail_eq (st : JobRecord) (batches : List BatchStatus)
    (g : Nat → Option String) (summ : String → Except String String)
    (hne : batches.filter (fun b => b.status = "succeeded") ≠ [])
    (hmiss : ((List.insertionSort (fun a b => a.index ≤ b.index)
        (batches.filter (fun b => b.status = "succeeded"))).foldl
          (mergeStep g) ([], [])).2 = [])
    (e : String)
    (hs : summ (mergedText (((List.insertionSort (fun a b => a.index ≤ b.index)
        (batches.filter (fun b => b.status = "succeeded"))).foldl
          (mergeStep g) ([], [])).1)) = .error e) :
    (_aggregate_job (some st) batches g true summ).finalJob
      = some { st with status := "failed", error := some ("Summarization failed: " ++ e) } := by
  simp only [_aggregate_job, hne, if_false, hmiss, ne_eq, not_true_eq_false, if_true, hs]

/-- C4 counterexample: with one succeeded batch whose output is present and the
endpoint's default summarize=True, a failing summarizer leaves the job failed
even though the merged output was written — refuting the claim's final clause
that the job then ends done. -/
theorem claim_C4_counterexample :
    (_aggregate_job (some jC3) [bC3a] gC4 true summFail).savedOutput = some "h\nr\n"
    ∧ (_aggregate_job (some jC3) [bC3a] gC4 true summFail).finalJob.map (fun j => j.status)
        = some "failed" := by
  decide

/-- C4 amended: manual aggregate-now fails with "No successful batches to
aggregate" when no batch record is succeeded (no output written); fails listing
all missing indices when some succeeded batch's stored output is absent (no
output written); otherwise writes the merged output and ends done — unless
summarization was requested and raises, in which case the output is still
written but the job ends failed with a summarization error. -/
theorem claim_C4_aggregate_amended (st : JobRecord) (batches : List BatchStatus)
    (g : Nat → Option String) (summarize : Bool) (summ : String → Except String String) :
    ((∀ b ∈ batches, b.status ≠ "succeeded") →
      (_aggregate_job (some st) batches g summarize summ).finalJob
        = some { st with status := "failed", error := some "No successful batches to aggregate" }
      ∧ (_aggregate_job (some st) batches g summarize summ).savedOutput = none)
    ∧ ((∃ b ∈ batches, b.status = "succeeded" ∧ outputAbsent (g b.index) = true) →
      ∃ jf, (_aggregate_job (some st) batches g summarize summ).finalJob = some jf
        ∧ jf.status = "failed"
        ∧ jf.error = some ("Missing output files for batches: " ++ pyListRepr
            (((List.insertionSort (fun a b => a.index ≤ b.index)
              (batches.filter (fun b => b.status = "succeeded"))).filter
                (fun b => outputAbsent (g b.index))).map (fun b => b.index)))
        ∧ (_aggregate_job (some st) batches g summarize summ).savedOutput = none)
    ∧ ((∃ b ∈ batches, b.status = "succeeded") →
      (∀ b ∈ batches, b.status = "succeeded" → outputAbsent (g b.index) = false) →
      (_aggregate_job (some st) batches g summarize summ).savedOutput.isSome
      ∧ (∀ out, (_aggregate_job (some st) batches g summarize summ).savedOutput = some out →
          ((summarize = false ∨ ∃ s, summ out = .ok s) →
            (_aggregate_job (some st) batches g summarize summ).finalJob
              = some { st with status := "done", error := none })
          ∧ (∀ e, summarize = true → summ out = .error e →
            (_aggregate_job (some st) batches g summarize summ).finalJob
              = some { st with status := "failed", error := some ("Summarization failed: " ++ e) }))) := by
  refine ⟨?_, ?_, ?_⟩
  · intro hall
    have hf : batches.filter (fun b => b.status = "succeeded") = [] := by
      rw [List.filter_eq_nil_iff]
      intro b hb
      simp [hall b hb]
    constructor <;> simp [_aggregate_job, hf]
  · rintro ⟨b, hb, hbs, hba⟩
    have hbf : b ∈ batches.filter (fun x => x.status = "succeeded") :=
      List.mem_filter.mpr ⟨hb, by simp [hbs]⟩
    have hne : batches.filter (fun x => x.status = "succeeded") ≠ [] :=
      List.ne_nil_of_mem hbf
    have hbsort : b ∈ List.insertionSort (fun a b : BatchStatus => a.index ≤ b.index)
        (batches.filter (fun x => x.status = "succeeded")) :=
      (List.Perm.mem_iff (List.perm_insertionSort _ _)).mpr hbf
    have hbmiss : b ∈ (List.insertionSort (fun a b : BatchStatus => a.index ≤ b.index)
        (batches.filter (fun x => x.status = "succeeded"))).filter
          (fun x => outputAbsent (g x.index)) :=
      List.mem_filter.mpr ⟨hbsort, by simp [hba]⟩
    have hM := mergeFold_missing g (List.insertionSort (fun a b : BatchStatus => a.index ≤ b.index)
      (batches.filter (fun x => x.status = "succeeded"))) [] []
    have hMne : ((List.insertionSort (fun a b : BatchStatus => a.index ≤ b.index)
        (batches.filter (fun x => x.status = "succeeded"))).foldl
          (mergeStep g) ([], [])).2 ≠ [] := by
      rw [hM]
      simp only [List.nil_append, ne_eq, List.map_eq_nil_iff]
      exact List.ne_nil_of_mem hbmiss
    simp only [_aggregate_job, hne, if_false, hMne, if_true, ne_eq, not_false_eq_true]
    refine ⟨_, rfl, ?_, ?_, ?_⟩
    · trivial
    · simp only [hM, List.nil_append]
    · trivial
  · intro hex hall
    obtain ⟨b0, hb0, hb0s⟩ := hex
    have hne : batches.filter (fun b => b.status = "succeeded") ≠ [] := by
      intro h
      rw [List.filter_eq_nil_iff] at h
      exact absurd (by simp [hb0s]) (h b0 hb0)
    have hallf : ∀ x ∈ batches.filter (fun b => b.status = "succeeded"),
        outputAbsent (g x.index) = false := by
      intro x hx
      have hm := List.mem_filter.mp hx
      exact hall x hm.1 (by simpa using hm.2)
    have hmiss : ((List.insertionSort (fun a b : BatchStatus => a.index ≤ b.index)
        (batches.filter (fun b => b.status = "succeeded"))).foldl
          (mergeStep g) ([], [])).2 = [] := by
      rw [mergeFold_missing]
      have hfe : (List.insertionSort (fun a b : BatchStatus => a.index ≤ b.index)
          (batches.filter (fun b => b.status = "succeeded"))).filter
            (fun b => outputAbsent (g b.index)) = [] := by
        rw [List.filter_eq_nil_iff]
        intro x hx
        have hxm : x ∈ batches.filter (fun b => b.status = "succeeded") :=
          (List.Perm.mem_iff (List.perm_insertionSort _ _)).mp hx
        simp [hallf x hxm]
      rw [hfe]
      simp
    have hsaved := aggregate_savedOutput_eq st batches g summarize summ hne hmiss
    refine ⟨by rw [hsaved]; rfl, ?_⟩
    intro out hout
    rw [hsaved] at hout
    have hout' := Option.some.inj hout
    constructor
    · intro hsum
      apply aggregate_done_eq st batches g summarize summ hne hmiss
      rw [hout']
      exact hsum
    · intro e hsz hse
      subst hsz
      apply aggregate_sumfail_eq st batches g summ hne hmiss e
      rw [hout']
      exact hse

/-- Witness for C4 amended: a one-batch job with its output present and no
summarization requested writes the merged output and ends done. -/
theorem claim_C4_aggregate_amended_witness :
    ((∃ b ∈ [bC3a], b.status = "succeeded")
    ∧ (∀ b ∈ [bC3a], b.status = "succeeded" → outputAbsent (gC4 b.index) = false))
    ∧ ((_aggregate_job (some jC3) [bC3a] gC4 false summFail).savedOutput.isSome
      ∧ (_aggregate_job (some jC3) [bC3a] gC4 false summFail).finalJob
          = some { jC3 with status := "done", error := none }) := by
  refine ⟨⟨by decide, by decide⟩, ?_, ?_⟩
  · exact ((claim_C4_aggregate_amended jC3 [bC3a] gC4 false summFail).2.2
      (by decide) (by decide)).1
  · exact (((claim_C4_aggregate_amended jC3 [bC3a] gC4 false summFail).2.2
      (by decide) (by decide)).2 "h\nr\n" (by decide)).1 (Or.inl rfl)

/-! ## Batch output header lemmas (C10) -/

theorem pySplitlinesAux_other (c : Char) (h1 : ¬c = '\r') (h2 : ¬c = '\n')
    (rest : List Char) (acc : List Char) :
    pySplitlinesAux (c :: rest) acc = pySplitlinesAux rest (c :: acc) := by
  rw [pySplitlinesAux.eq_def]
  split <;> simp_all

theorem pySplitlinesAux_crlf :
    ∀ (cs : List Char) (acc tail : List Char),
      (∀ c ∈ cs, ¬c = '\n' ∧ ¬c = '\r') →
      pySplitlinesAux (cs ++ '\r' :: '\n' :: tail) acc
        = String.mk (acc.reverse ++ cs) :: pySplitlinesAux tail [] := by
  intro cs
  induction cs with
  | nil =>
    intro acc tail _
    simp only [List.nil_append, List.append_nil]
    rfl
  | cons c cs ih =>
    intro acc tail h
    have hc := h c (List.mem_cons_self c cs)
    rw [List.cons_append, pySplitlinesAux_other c hc.2 hc.1 _ acc]
    rw [ih (c :: acc) tail (fun x hx => h x (List.mem_cons_of_mem c hx))]
    simp

theorem rows_to_csv_ne_empty (rows : List TweetRow) : _rows_to_csv rows ≠ "" := by
  cases rows with
  | nil => decide
  | cons r rs =>
    intro h
    rw [show _rows_to_csv (r :: rs) = csvRow fieldnames
        ++ String.join ((r :: rs).map (fun row =>
          csvRow (fieldnames.map (fun k => rowGet row k)))) from by
      simp [_rows_to_csv]] at h
    have h2 := congrArg String.length h
    rw [String.length_append] at h2
    have h3 : (csvRow fieldnames).length = 58 := by decide
    have h4 : ("" : String).length = 0 := by decide
    omega

theorem rows_to_csv_head (rows : List TweetRow) :
    (pySplitlines (_rows_to_csv rows)).head?
      = some (if rows = [] then plainHeader else quotedHeader) := by
  cases rows with
  | nil => decide
  | cons r rs =>
    have hq : csvRow fieldnames = quotedHeader ++ "\r\n" := by decide
    have hsh : _rows_to_csv (r :: rs) = quotedHeader
        ++ ("\r\n" ++ String.join ((r :: rs).map (fun row =>
          csvRow (fieldnames.map (fun k => rowGet row k))))) := by
      simp only [_rows_to_csv, if_neg (by simp : ¬(r :: rs = []))]
      rw [hq, String.append_assoc]
    rw [hsh]
    have hdata : (quotedHeader ++ ("\r\n" ++ String.join ((r :: rs).map (fun row =>
        csvRow (fieldnames.map (fun k => rowGet row k)))))).data
        = quotedHeader.data ++ ('\r' :: '\n' :: (String.join ((r :: rs).map (fun row =>
          csvRow (fieldnames.map (fun k => rowGet row k))))).data) := by
      rw [String.data_append, String.data_append]
      rfl
    simp only [pySplitlines, hdata]
    rw [pySplitlinesAux_crlf quotedHeader.data []
      (String.join ((r :: rs).map (fun row =>
        csvRow (fieldnames.map (fun k => rowGet row k))))).data (by decide)]
    simp only [List.reverse_nil, List.nil_append, List.head?_cons, if_neg (by simp :
      ¬(r :: rs = []))]

/-- C10 counterexample: for a batch that parsed one row, the stored CSV's first
line is the QUOTE_ALL-quoted header, not the fixed plain header line the claim
names. -/
theorem claim_C10_counterexample :
    (pySplitlines (_rows_to_csv [[("username", "u"), ("tweet_id", "1"),
        ("created_at", "t"), ("text", "x"), ("original_url", "v")]])).head?
      = some "\"username\",\"tweet_id\",\"created_at\",\"text\",\"original_url\""
    ∧ ("\"username\",\"tweet_id\",\"created_at\",\"text\",\"original_url\"" : String)
        ≠ "username,tweet_id,created_at,text,original_url" := by
  decide

/-- C10 amended: every rendered batch CSV is non-empty and begins with a header
line — the plain `username,...` line when zero rows were parsed and its
QUOTE_ALL-quoted form when rows are present — every batch output the executor
persists is such a rendering, and the aggregator's missing-output check cannot
fire on an output of this shape. -/
theorem claim_C10_output_header_amended (rows : List TweetRow) :
    (_rows_to_csv rows ≠ ""
    ∧ (pySplitlines (_rows_to_csv rows)).head?
        = some (if rows = [] then plainHeader else quotedHeader))
    ∧ (∀ (chat : Nat → Nat → Except String String) (parse : String → List TweetRow)
        (bidx mr bmr : Nat) (b m : ℚ) (clock : Nat) (t : String),
        (_fetch_batch_with_retries chat parse bidx mr bmr b m clock).output = some t →
        ∃ rows2, t = _rows_to_csv rows2)
    ∧ (∀ (b : BatchStatus) (acc : List String × List Nat) (g : Nat → Option String),
        g b.index = some (_rows_to_csv rows) → (mergeStep g acc b).2 = acc.2) := by
  refine ⟨⟨rows_to_csv_ne_empty rows, rows_to_csv_head rows⟩, ?_, ?_⟩
  · intro chat parse bidx mr bmr b m clock t h
    exact outerLoop_output_shape chat parse bidx mr bmr b m (bmr + 1) 0
      (initialBatchStatus bidx bmr clock) (clock + 1) t h
  · intro b acc g hg
    have hne := rows_to_csv_ne_empty rows
    simp only [mergeStep, hg, hne, if_false]
    split
    · rfl
    · split <;> rfl

/-- Witness for C10 amended at a concrete one-row batch and a concrete
successful run persisting its output. -/
theorem claim_C10_output_header_amended_witness :
    ((_fetch_batch_with_retries (fun _ _ => Except.ok "") parse0 0 0 1 1 8 0).output
        = some (_rows_to_csv [])
    ∧ ((fun _ : Nat => some (_rows_to_csv [[("username", "u")]])) bC3a.index
        = some (_rows_to_csv [[("username", "u")]])))
    ∧ (∃ rows2, _rows_to_csv [] = _rows_to_csv rows2)
    ∧ (mergeStep (fun _ => some (_rows_to_csv [[("username", "u")]])) (["x"], []) bC3a).2
        = ([] : List Nat) := by
  refine ⟨⟨by decide, rfl⟩, ?_, ?_⟩
  · exact (claim_C10_output_header_amended []).2.1 (fun _ _ => Except.ok "") parse0 0 0 1 1 8 0
      (_rows_to_csv []) (by decide)
  · exact (claim_C10_output_header_amended [[("username", "u")]]).2.2 bC3a (["x"], [])
      (fun _ => some (_rows_to_csv [[("username", "u")]])) rfl

/-! ## Store lemmas for the single-batch retry -/

theorem find?_map_upsert (bb : BatchStatus) (i : Nat) (h : bb.index ≠ i) :
    ∀ l : List BatchStatus,
      (l.map (fun x => if x.index = bb.index then bb else x)).find? (fun x => x.index = i)
        = l.find? (fun x => x.index = i) := by
  intro l
  induction l with
  | nil => rfl
  | cons x l ih =>
    by_cases hx : x.index = bb.index
    · rw [List.map_cons, if_pos hx,
        List.find?_cons_of_neg _ (by simp [h]),
        List.find?_cons_of_neg _ (by simp [hx ▸ h])]
      exact ih
    · rw [List.map_cons, if_neg hx]
      by_cases hxi : x.index = i
      · rw [List.find?_cons_of_pos _ (by simp [hxi]), List.find?_cons_of_pos _ (by simp [hxi])]
      · rw [List.find?_cons_of_neg _ (by simp [hxi]), List.find?_cons_of_neg _ (by simp [hxi])]
        exact ih

theorem find?_append_single_ne (bb : BatchStatus) (i : Nat) (h : bb.index ≠ i) :
    ∀ l : List BatchStatus,
      (l ++ [bb]).find? (fun x => x.index = i) = l.find? (fun x => x.index = i) := by
  intro l
  induction l with
  | nil => simp [List.find?, h]
  | cons x l ih =>
    rw [List.cons_append]
    by_cases hxi : x.index = i
    · rw [List.find?_cons_of_pos _ (by simp [hxi]), List.find?_cons_of_pos _ (by simp [hxi])]
    · rw [List.find?_cons_of_neg _ (by simp [hxi]), List.find?_cons_of_neg _ (by simp [hxi])]
      exact ih

theorem find?_upsert_ne (bb : BatchStatus) (i : Nat) (h : bb.index ≠ i) (l : List BatchStatus) :
    (upsertBatch l bb).find? (fun x => x.index = i) = l.find? (fun x => x.index = i) := by
  unfold upsertBatch
  by_cases hany : l.any (fun x => x.index = bb.index)
  · rw [if_pos (by simpa using hany)]
    exact find?_map_upsert bb i h l
  · rw [if_neg (by simpa using hany)]
    exact find?_append_single_ne bb i h l

theorem find?_foldl_upsert (i : Nat) :
    ∀ (ws : List BatchStatus) (l : List BatchStatus),
      (∀ w ∈ ws, w.index ≠ i) →
      (ws.foldl upsertBatch l).find? (fun x => x.index = i)
        = l.find? (fun x => x.index = i) := by
  intro ws
  induction ws with
  | nil => intro l _; rfl
  | cons w ws ih =>
    intro l h
    rw [List.foldl_cons,
      ih (upsertBatch l w) (fun x hx => h x (List.mem_cons_of_mem w hx)),
      find?_upsert_ne w i (h w (List.mem_cons_self w ws)) l]

theorem fetch_single_for_job_ok (s : StoreState) (user_rows : List TweetRow)
    (chat : Nat → Nat → Except String String) (parse : String → List TweetRow)
    (mr bmr : Nat) (b m : ℚ) (clock : Nat) (bs idx : Nat)
    (hidx : idx < (_chunk user_rows bs).length) :
    ∃ s2 flag err,
      fetch_single_batch_for_job s user_rows chat parse mr bmr b m clock bs idx
        = Except.ok (s2, flag, err)
      ∧ s2.job = s.job
      ∧ s2.batches = (_fetch_batch_with_retries chat parse idx mr bmr b m clock).writes.foldl
          upsertBatch s.batches := by
  have hguard : ¬(idx ≥ (_chunk user_rows bs).length) := by omega
  by_cases hst : (_fetch_batch_with_retries chat parse idx mr bmr b m clock).final.status
      = "succeeded"
  · refine ⟨{ s with
        batches := (_fetch_batch_with_retries chat parse idx mr bmr b m clock).writes.foldl
          upsertBatch s.batches,
        outputs := match (_fetch_batch_with_retries chat parse idx mr bmr b m clock).output with
                   | some t => setOutput s.outputs idx t
                   | none => s.outputs }, true, none, ?_, rfl, rfl⟩
    simp only [fetch_single_batch_for_job, hguard, if_false, hst, if_true]
  · refine ⟨{ s with
        batches := (_fetch_batch_with_retries chat parse idx mr bmr b m clock).writes.foldl
          upsertBatch s.batches,
        outputs := match (_fetch_batch_with_retries chat parse idx mr bmr b m clock).output with
                   | some t => setOutput s.outputs idx t
                   | none => s.outputs }, false,
      (_fetch_batch_with_retries chat parse idx mr bmr b m clock).final.error, ?_, rfl, rfl⟩
    simp only [fetch_single_batch_for_job, hguard, if_false, hst]

/-- C7: manual single-batch retry touches only the given index's batch record,
recomputes the job's failed/succeeded counts by counting over the full
persisted batch set, and sets the job status to done exactly when the
recomputed failed count is zero, to failed otherwise. -/
theorem claim_C7_retry_recounts (s : StoreState) (st : JobRecord) (user_rows : List TweetRow)
    (chat : Nat → Nat → Except String String) (parse : String → List TweetRow)
    (mr bmr : Nat) (b m : ℚ) (clock : Nat) (tu idx : Nat)
    (hj : s.job = some st) (hbs : ¬(st.batch_size = 0)) (htu : st.total_users = some tu)
    (hlen : tu = user_rows.length)
    (hrange : idx < (tu + st.batch_size - 1) / st.batch_size) :
    (∀ i, ¬(i = idx) →
      (_retry_batch s true user_rows chat parse mr bmr b m clock ((idx : Int))).batches.find?
          (fun x => x.index = i)
        = s.batches.find? (fun x => x.index = i))
    ∧ ∃ j2, (_retry_batch s true user_rows chat parse mr bmr b m clock ((idx : Int))).job
        = some j2
      ∧ j2.failed_batches = some (((_retry_batch s true user_rows chat parse mr bmr b m clock
          ((idx : Int))).batches.filter (fun x => x.status = "failed")).length)
      ∧ j2.succeeded_batches = some (((_retry_batch s true user_rows chat parse mr bmr b m clock
          ((idx : Int))).batches.filter (fun x => x.status = "succeeded")).length)
      ∧ (j2.status = "done" ↔ ((_retry_batch s true user_rows chat parse mr bmr b m clock
          ((idx : Int))).batches.filter (fun x => x.status = "failed")).length = 0)
      ∧ (j2.status = "done" → j2.error = none)
      ∧ (¬(((_retry_batch s true user_rows chat parse mr bmr b m clock
          ((idx : Int))).batches.filter (fun x => x.status = "failed")).length = 0) →
          j2.status = "failed") := by
  have hchunk : (_chunk user_rows st.batch_size).length
      = (tu + st.batch_size - 1) / st.batch_size := by
    rw [chunk_length st.batch_size hbs user_rows, hlen]
  have hguard : ¬(((idx : Int)) < 0
      ∨ ((idx : Int)) ≥ (((tu + st.batch_size - 1) / st.batch_size : Nat) : Int)) := by
    push_neg
    constructor
    · omega
    · omega
  have hidx : ((idx : Int)).toNat < (_chunk user_rows st.batch_size).length := by
    rw [hchunk]
    simpa using hrange
  obtain ⟨s2, flag, err, hok, hjob2, hb2⟩ := fetch_single_for_job_ok
    { s with job := some { st with status := "running" } } user_rows chat parse mr bmr b m
    clock st.batch_size ((idx : Int)).toNat hidx
  have hunfold : _retry_batch s true user_rows chat parse mr bmr b m clock ((idx : Int))
      = retryBatchProceed s st user_rows chat parse mr bmr b m clock ((idx : Int)) := by
    simp only [_retry_batch, hj, hbs, if_false, htu, hguard]
    simp
  have hwidx : ∀ w ∈ (_fetch_batch_with_retries chat parse ((idx : Int)).toNat mr bmr b m
      clock).writes, w.index = ((idx : Int)).toNat := by
    intro w hw
    exact outerLoop_writes_index chat parse ((idx : Int)).toNat mr bmr b m (bmr + 1)
      0 (initialBatchStatus ((idx : Int)).toNat bmr clock) (clock + 1) w hw
  have hproceed : retryBatchProceed s st user_rows chat parse mr bmr b m clock ((idx : Int))
      = (let s3 := _update_job_batch_counts s2
         match s3.job with
         | none => s3
         | some stC =>
           if stC.failed_batches.getD 0 = 0 then
             { s3 with job := some { stC with status := "done", error := none } }
           else
             { s3 with job := some { stC with status := "failed" } }) := by
    simp only [retryBatchProceed, hok]
  have hs2job : s2.job = some { st with status := "running" } := hjob2
  have hcounts : _update_job_batch_counts s2
      = { s2 with job := some { { st with status := "running" } with
          failed_batches := some ((s2.batches.filter (fun x => x.status = "failed")).length),
          succeeded_batches :=
            some ((s2.batches.filter (fun x => x.status = "succeeded")).length) } } := by
    simp only [_update_job_batch_counts, hs2job]
  rw [hunfold, hproceed, hcounts]
  by_cases hcnt : (s2.batches.filter (fun x => x.status = "failed")).length = 0
  · simp only [hcnt, Option.getD_some, if_pos rfl]
    constructor
    · intro i hi
      simp only [hb2]
      apply find?_foldl_upsert
      intro w hw
      rw [hwidx w hw]
      simpa using fun hh => hi (by omega)
    · refine ⟨_, rfl, ?_, ?_, ?_, ?_, ?_⟩
      · simp [hcnt]
      · simp
      · simp [hcnt]
      · intro _; rfl
      · intro h
        simp [hcnt] at h
  · simp only [Option.getD_some, if_neg hcnt]
    constructor
    · intro i hi
      simp only [hb2]
      apply find?_foldl_upsert
      intro w hw
      rw [hwidx w hw]
      simpa using fun hh => hi (by omega)
    · refine ⟨_, rfl, ?_, ?_, ?_, ?_, ?_⟩
      · simp
      · simp
      · constructor
        · intro h
          simp at h
        · intro h
          exact absurd h hcnt
      · intro h
        simp at h
      · intro _
        rfl

/-- Witness for C7: retrying index 0 of the one-batch job leaves other indices
untouched, recomputes counts from the store, and flips the job to done exactly
because the recomputed failed count is zero. -/
theorem claim_C7_retry_recounts_witness :
    (sC7.job = some jC7 ∧ ¬(jC7.batch_size = 0) ∧ jC7.total_users = some 1
      ∧ (1 : Nat) = userRowsC7.length ∧ 0 < (1 + jC7.batch_size - 1) / jC7.batch_size)
    ∧ (_retry_batch sC7 true userRowsC7 chatOkC7 parse0 0 1 1 8 0
        (((0 : Nat) : Int))).batches.find? (fun x => x.index = 5)
        = sC7.batches.find? (fun x => x.index = 5)
    ∧ ∃ j2, (_retry_batch sC7 true userRowsC7 chatOkC7 parse0 0 1 1 8 0
        (((0 : Nat) : Int))).job = some j2
      ∧ (j2.status = "done" ↔ ((_retry_batch sC7 true userRowsC7 chatOkC7 parse0 0 1 1 8 0
          (((0 : Nat) : Int))).batches.filter (fun x => x.status = "failed")).length = 0) := by
  have h := claim_C7_retry_recounts sC7 jC7 userRowsC7 chatOkC7 parse0 0 1 1 8 0 1 0
    rfl (by decide) rfl (by decide) (by decide)
  obtain ⟨j2, hj2, _, _, hiff, _, _⟩ := h.2
  exact ⟨⟨rfl, by decide, rfl, by decide, by decide⟩, h.1 5 (by decide), ⟨j2, hj2, hiff⟩⟩

/-- C8: for an existing job (with its stored total_users and batch_size), a
retry request for an index outside 0 .. ceil(total_users/batch_size)-1 is
rejected with HTTP 400 before any state change: the store after the request
equals the store before and no background retry task is enqueued. -/
theorem claim_C8_out_of_range_rejected (s : StoreState) (st : JobRecord) (tu : Nat)
    (batch_idx : Int) (hj : s.job = some st) (htu : st.total_users = some tu)
    (hbs : ¬(st.batch_size = 0))
    (hout : batch_idx < 0
      ∨ batch_idx ≥ (((tu + st.batch_size - 1) / st.batch_size : Nat) : Int)) :
    (retry_job_batch s batch_idx).1 = Except.error "batch_idx out of range"
    ∧ (retry_job_batch s batch_idx).2.1 = s
    ∧ (retry_job_batch s batch_idx).2.2 = false := by
  simp only [retry_job_batch, hj, htu, ne_eq, hbs, not_false_eq_true, if_true, hout]
  refine ⟨?_, ?_, ?_⟩ <;> trivial

/-- Witness for C8: index 5 of a 3-batch job is rejected with no state change
and no task enqueued. -/
theorem claim_C8_out_of_range_rejected_witness :
    (sC8.job = some jC8 ∧ jC8.total_users = some 23 ∧ ¬(jC8.batch_size = 0)
      ∧ ((5 : Int) < 0 ∨ (5 : Int) ≥ (((23 + jC8.batch_size - 1) / jC8.batch_size : Nat) : Int)))
    ∧ ((retry_job_batch sC8 5).1 = Except.error "batch_idx out of range"
      ∧ (retry_job_batch sC8 5).2.1 = sC8
      ∧ (retry_job_batch sC8 5).2.2 = false) := by
  refine ⟨⟨rfl, rfl, by decide, by decide⟩, ?_⟩
  exact claim_C8_out_of_range_rejected sC8 jC8 23 5 rfl rfl (by decide) (by decide)

/-! ## Scheduler lemmas -/

theorem filter_not_filter_eq_nil {α : Type _} (l : List (String × α)) (jid : String) :
    ((l.filter (fun p => ¬(p.1 = jid))).filter (fun p => p.1 = jid)) = [] := by
  rw [List.filter_eq_nil_iff]
  intro p hp
  have hm := List.mem_filter.mp hp
  simp at hm ⊢
  exact hm.2

theorem countKey_addJobReplacing (st : SchedState) (jid : String) (t : Nat × Nat) :
    countKey (addJobReplacing st jid t) jid = 1 := by
  unfold countKey addJobReplacing removeJob
  rw [List.filter_append, filter_not_filter_eq_nil]
  simp

theorem getJob_addJobReplacing (st : SchedState) (jid : String) (t : Nat × Nat) :
    getJob (addJobReplacing st jid t) jid = some t := by
  unfold getJob addJobReplacing removeJob
  have H : ∀ l : List (String × Nat × Nat), (∀ p ∈ l, ¬(p.1 = jid)) →
      ((l ++ [(jid, t)]).find? (fun p => p.1 = jid)) = some (jid, t) := by
    intro l
    induction l with
    | nil => intro _; simp [List.find?]
    | cons x l ih =>
      intro h
      rw [List.cons_append,
        List.find?_cons_of_neg _ (by simp [h x (List.mem_cons_self x l)])]
      exact ih (fun p hp => h p (List.mem_cons_of_mem x hp))
  rw [H _ (fun p hp => by
    have hm := List.mem_filter.mp hp
    simpa using hm.2)]
  rfl

theorem getJob_removeJob (st : SchedState) (jid : String) :
    getJob (removeJob st jid) jid = none := by
  unfold getJob removeJob
  have hf : ((st.trigJobs.filter (fun p => ¬(p.1 = jid))).find? (fun p => p.1 = jid)) = none := by
    rw [List.find?_eq_none]
    intro p hp
    have hm := List.mem_filter.mp hp
    simpa using hm.2
  rw [hf]
  rfl

theorem getJob_unschedule (st : SchedState) (sub_id : String) :
    getJob (_unschedule_subscription st sub_id) (schedJobId sub_id) = none := by
  unfold _unschedule_subscription
  by_cases h : (getJob st (schedJobId sub_id)).isSome
  · rw [if_pos h]
    exact getJob_removeJob st _
  · rw [if_neg h]
    cases hg : getJob st (schedJobId sub_id) with
    | none => rfl
    | some p => rw [hg] at h; simp at h

theorem countKey_unschedule (st : SchedState) (sub_id : String) :
    countKey (_unschedule_subscription st sub_id) (schedJobId sub_id) = 0 := by
  unfold _unschedule_subscription
  by_cases h : (getJob st (schedJobId sub_id)).isSome
  · rw [if_pos h]
    unfold countKey removeJob
    rw [filter_not_filter_eq_nil]
    rfl
  · rw [if_neg h]
    unfold countKey
    unfold getJob at h
    cases hf : st.trigJobs.find? (fun p => p.1 = schedJobId sub_id) with
    | some p => rw [hf] at h; simp at h
    | none =>
      rw [List.find?_eq_none] at hf
      rw [List.length_eq_zero, List.filter_eq_nil_iff]
      exact hf

theorem nextFire_ge (h m now : Nat) : now ≤ nextFire h m now := by
  unfold nextFire targetSecs
  dsimp only
  have h1 : now % 86400 ≤ now := Nat.mod_le now 86400
  have h2 : now % 86400 < 86400 := Nat.mod_lt now (by omega)
  split <;> omega

theorem nextFire_gt (h m now : Nat) (hne : now % 86400 ≠ targetSecs h m) :
    now < nextFire h m now := by
  unfold nextFire
  unfold targetSecs at hne ⊢
  dsimp only
  have h1 : now % 86400 ≤ now := Nat.mod_le now 86400
  have h2 : now % 86400 < 86400 := Nat.mod_lt now (by omega)
  split <;> omega

/-- C9: the schedule manager keeps at most one live trigger per subscription:
scheduling an enabled subscription leaves exactly one trigger for it (replace,
never add) and get_next_run then returns the trigger's next activation, an
instant no earlier than now (strictly later whenever now is not exactly on the
trigger's time of day); re-scheduling after disabling removes the trigger so
get_next_run returns none, and deleting the subscription also removes it. -/
theorem claim_C9_scheduler_triggers (st : SchedState)
    (storage : List (String × Subscription)) (sub : Subscription) (sub_id : String)
    (now : Nat) :
    (getSub storage sub_id = some sub → sub.id = sub_id → sub.enabled = true →
      countKey (schedule_subscription st storage sub_id now).1 (schedJobId sub_id) = 1
      ∧ get_next_run (schedule_subscription st storage sub_id now).1 sub_id now
          = some (nextFire sub.schedule_hour sub.schedule_minute now)
      ∧ now ≤ nextFire sub.schedule_hour sub.schedule_minute now
      ∧ (now % 86400 ≠ targetSecs sub.schedule_hour sub.schedule_minute →
          now < nextFire sub.schedule_hour sub.schedule_minute now))
    ∧ (getSub storage sub_id = some sub → sub.enabled = false →
      get_next_run (schedule_subscription st storage sub_id now).1 sub_id now = none
      ∧ countKey (schedule_subscription st storage sub_id now).1 (schedJobId sub_id) = 0)
    ∧ (getSub storage sub_id = some sub →
      get_next_run (delete_sub st storage sub_id).1 sub_id now = none) := by
  refine ⟨?_, ?_, ?_⟩
  · intro hsub hid hen
    simp only [schedule_subscription, hsub, hen, if_true, _schedule_subscription, hid]
    refine ⟨countKey_addJobReplacing _ _ _, ?_, nextFire_ge _ _ now, fun hne =>
      nextFire_gt _ _ now hne⟩
    simp only [get_next_run, getJob_addJobReplacing]
  · intro hsub hdis
    simp only [schedule_subscription, hsub, hdis, Bool.false_eq_true, if_false]
    exact ⟨by simp only [get_next_run, getJob_unschedule], countKey_unschedule st sub_id⟩
  · intro hsub
    simp only [delete_sub, hsub]
    simp only [get_next_run, getJob_unschedule]

/-- Witness for C9: re-scheduling the edited, enabled subscription replaces the
stale trigger (exactly one remains) and the next activation is a strictly
future instant; scheduling it disabled leaves no trigger and get_next_run
returns none; deleting it also removes the trigger. -/
theorem claim_C9_scheduler_triggers_witness :
    (getSub [("a", subC9)] "a" = some subC9 ∧ subC9.id = "a" ∧ subC9.enabled = true
      ∧ getSub [("a", subC9off)] "a" = some subC9off ∧ subC9off.enabled = false
      ∧ (1000 : Nat) % 86400 ≠ targetSecs subC9.schedule_hour subC9.schedule_minute)
    ∧ (countKey (schedule_subscription stC9 [("a", subC9)] "a" 1000).1 (schedJobId "a") = 1
      ∧ get_next_run (schedule_subscription stC9 [("a", subC9)] "a" 1000).1 "a" 1000
          = some (nextFire subC9.schedule_hour subC9.schedule_minute 1000)
      ∧ 1000 < nextFire subC9.schedule_hour subC9.schedule_minute 1000)
    ∧ (get_next_run (schedule_subscription stC9 [("a", subC9off)] "a" 1000).1 "a" 1000 = none
      ∧ countKey (schedule_subscription stC9 [("a", subC9off)] "a" 1000).1 (schedJobId "a") = 0)
    ∧ get_next_run (delete_sub stC9 [("a", subC9)] "a").1 "a" 1000 = none := by
  have h1 := (claim_C9_scheduler_triggers stC9 [("a", subC9)] subC9 "a" 1000).1
    rfl rfl rfl
  have h2 := (claim_C9_scheduler_triggers stC9 [("a", subC9off)] subC9off "a" 1000).2.1
    rfl rfl
  have h3 := (claim_C9_scheduler_triggers stC9 [("a", subC9)] subC9 "a" 1000).2.2 rfl
  exact ⟨⟨rfl, rfl, rfl, rfl, rfl, by decide⟩,
    ⟨h1.1, h1.2.1, h1.2.2.2 (by decide)⟩, h2, h3⟩

end XFeed
